import Mathlib

/-!
Verification of the core resolution algorithms of a rustdoc-JSON to
Docusaurus-markdown converter (`src/converter.rs`, `src/writer.rs`).

The Rust code is shallowly embedded: each definition below mirrors one Rust
function.  Rust `HashMap`s that are only ever used through `get`/`entry`
are modelled as association lists with the corresponding lookup/insert
operations; iteration over a map is modelled as iteration over the list.
Rust strings are Lean `String`s; the handful of `str` primitives the code
uses (`find`, `rfind`, `split`, `replace`, `starts_with`, `trim`,
`lines`, ...) are re-implemented below over `List Char` by structural
recursion so that closed instances evaluate inside the kernel.  Character
indices stand in for Rust's byte indices: every index that the code
slices at is produced by `find`/`rfind`, i.e. is a character boundary, so
the two views agree.
-/

/-! ## String primitives (models of Rust `str` methods) -/

/-- Is `p` a prefix of `l`? (model of `str::starts_with` on char lists). -/
def listHasPfx : List Char → List Char → Bool
  | [], _ => true
  | _ :: _, [] => false
  | a :: p, b :: l => a == b && listHasPfx p l

/-- Index of the first occurrence of `pat` in `s` (model of `str::find`). -/
def findSubIdx (pat : List Char) : List Char → Option Nat
  | [] => if pat.isEmpty then some 0 else none
  | c :: rest =>
    if listHasPfx pat (c :: rest) then some 0
    else (findSubIdx pat rest).map (· + 1)

/-- Fuel-driven worker for `rfindSubIdx`. -/
def rfindGo (pat : List Char) : Nat → List Char → Option Nat
  | _, [] => if pat.isEmpty then some 0 else none
  | 0, _ => none
  | fuel + 1, s =>
    match findSubIdx pat s with
    | none => none
    | some i =>
      match rfindGo pat fuel (s.drop (i + 1)) with
      | none => some i
      | some j => some (i + 1 + j)

/-- Index of the last occurrence of `pat` in `s` (model of `str::rfind`). -/
def rfindSubIdx (pat s : List Char) : Option Nat :=
  rfindGo pat s.length s

/-- Fuel-driven worker for `strSplitOnSub`; splits at each leftmost
non-overlapping occurrence of `sep`, like Rust `str::split`. -/
def splitGo (sep : List Char) : Nat → List Char → List (List Char)
  | 0, s => [s]
  | fuel + 1, s =>
    match findSubIdx sep s with
    | none => [s]
    | some i => s.take i :: splitGo sep fuel (s.drop (i + sep.length))

/-- Model of Rust `str::split(sep)` collected into a `Vec` (the code only
ever splits on the non-empty separators `"::"`, `"\n"`, ...). -/
def strSplitOnSub (s sep : String) : List String :=
  if sep.data.isEmpty then [s]
  else (splitGo sep.data (s.data.length + 1) s.data).map (fun l => ⟨l⟩)

/-- Model of Rust `[String]::join(sep)` / `str::join`. -/
def joinSep (sep : String) : List String → String
  | [] => ""
  | [a] => a
  | a :: rest => a ++ sep ++ joinSep sep rest

/-- Model of Rust `str::replace(pat, rep)` (all non-overlapping
occurrences, left to right); the code only replaces non-empty patterns. -/
def strReplaceSub (s pat rep : String) : String :=
  if pat.data.isEmpty then s else joinSep rep (strSplitOnSub s pat)

/-- Model of Rust `str::starts_with`. -/
def strStartsWith (s p : String) : Bool :=
  listHasPfx p.data s.data

/-- Model of Rust `str::ends_with`. -/
def strEndsWith (s p : String) : Bool :=
  listHasPfx p.data.reverse s.data.reverse

/-- Model of Rust `str::contains` (substring). -/
def strContainsSub (s pat : String) : Bool :=
  (findSubIdx pat.data s.data).isSome

/-- Model of Rust `str::strip_prefix`. -/
def strStripPfx (s p : String) : Option String :=
  if strStartsWith s p then some ⟨s.data.drop p.data.length⟩ else none

/-- Model of Rust `str::trim` (the inputs at hand only carry ASCII
whitespace, where `Char.isWhitespace` and Rust's `char::is_whitespace`
agree). -/
def strTrim (s : String) : String :=
  ⟨((s.data.dropWhile Char.isWhitespace).reverse.dropWhile Char.isWhitespace).reverse⟩

/-- Model of Rust `str::trim_end`. -/
def strTrimEnd (s : String) : String :=
  ⟨(s.data.reverse.dropWhile Char.isWhitespace).reverse⟩

/-- Model of Rust `str::lines`: split on `'\n'`, drop one trailing `'\r'`
per line, and no final empty line for a trailing newline. -/
def strLines (s : String) : List String :=
  if s.data.isEmpty then []
  else
    let parts := strSplitOnSub s "\n"
    let parts :=
      match parts.getLast? with
      | some last => if last.data.isEmpty then parts.dropLast else parts
      | none => parts
    parts.map (fun l => if strEndsWith l "\r" then ⟨l.data.dropLast⟩ else l)

/-- Model of Rust `str::matches(pat).count()` (non-overlapping count). -/
def countSubMatches (s pat : String) : Nat :=
  (strSplitOnSub s pat).length - 1

/-- Characters `s[from..to]` (exclusive upper bound), the model of Rust
byte-range slicing at the found boundaries. -/
def strSlice (s : String) (f t : Nat) : String :=
  ⟨(s.data.drop f).take (t - f)⟩

/-- Characters `s[from..]`. -/
def strDropN (s : String) (f : Nat) : String :=
  ⟨s.data.drop f⟩

/-- Characters `s[..to]`. -/
def strTakeN (s : String) (t : Nat) : String :=
  ⟨s.data.take t⟩

/-- Lexicographic comparison of char lists by code point — the model of
Rust string `cmp` (UTF-8 byte order coincides with code-point order). -/
def listLexLe : List Char → List Char → Bool
  | [], _ => true
  | _ :: _, [] => false
  | a :: s, b :: t =>
    if a.toNat == b.toNat then listLexLe s t
    else decide (a.toNat < b.toNat)

/-- `a <= b` in Rust's string ordering. -/
def strLe (a b : String) : Bool := listLexLe a.data b.data

/-- The single-quote character (ASCII 39). -/
def sqChar : Char := Char.ofNat 39

/-- The single-quote character as a string. -/
def sqStr : String := String.mk [sqChar]

/-! ## Data model (the used fragment of `rustdoc_types`)

Item identifiers are opaque: `Nat`.  Only the fields and variants the
embedded functions inspect are carried. -/

/-- `rustdoc_types::Visibility`. -/
inductive Visibility where
  | public
  | defaultVis
  | crateVis
  | restricted
  deriving DecidableEq, Repr

/-- The fragment of `rustdoc_types::ItemKind` stored in the path table and
matched by the link resolver (all remaining variants behave like the
wildcard arm and collapse into `kOther`). -/
inductive PathItemKind where
  | kStruct
  | kEnum
  | kTrait
  | kFunction
  | kTypeAlias
  | kConstant
  | kModule
  | kOther
  deriving DecidableEq, Repr

/-- The fragment of `rustdoc_types::ItemEnum` the embedded functions
match on.  `useItem src name target isGlob` is `ItemEnum::Use` with
`import.source`, `import.name`, `import.id`, `import.is_glob`;
`module items` is `ItemEnum::Module` with `module.items`.  Variants never
distinguished from the wildcard arm collapse into `otherItem`. -/
inductive ItemEnum where
  | module (items : List Nat)
  | useItem (src : String) (useName : String) (target : Option Nat) (isGlob : Bool)
  | structItem
  | enumItem
  | functionItem
  | traitItem
  | constantItem
  | typeAliasItem
  | structFieldItem
  | variantItem
  | mcrItem
  | procMcrItem
  | staticItem
  | otherItem
  deriving DecidableEq, Repr

/-- `rustdoc_types::Item`, restricted to the inspected fields.
`spanFilename` is `item.span.map (|s| s.filename)`, already as a unicode
string (the `to_str() == None` case cannot arise for the unicode strings
of the model). -/
structure Item where
  name : Option String
  visibility : Visibility
  inner : ItemEnum
  spanFilename : Option String
  deriving DecidableEq, Repr

/-- `rustdoc_types::ItemSummary` (an entry of `crate.paths`). -/
structure ItemSummary where
  crateId : Nat
  path : List String
  kind : PathItemKind
  deriving DecidableEq, Repr

/-- `rustdoc_types::Crate`, restricted to the inspected fields.
`externalCrates` maps a crate id to `ExternalCrate::name`. -/
structure Crate where
  root : Nat
  crateVersion : Option String
  index : List (Nat × Item)
  paths : List (Nat × ItemSummary)
  externalCrates : List (Nat × String)
  deriving DecidableEq, Repr

/-- `HashMap::get` on the association-list model, keyed by item id. -/
def lookupId {α : Type} (l : List (Nat × α)) (k : Nat) : Option α :=
  (l.find? (fun p => p.1 == k)).map (·.2)

/-- `HashMap::get` on the association-list model, keyed by string. -/
def lookupStr {α : Type} (l : List (String × α)) (k : String) : Option α :=
  (l.find? (fun p => p.1 == k)).map (·.2)

/-- `build_path_map`: item id → full path segments, from `crate.paths`. -/
def buildPathMap (c : Crate) : List (Nat × List String) :=
  c.paths.map (fun p => (p.1, p.2.path))

/-- `is_public`. -/
def isPublic (it : Item) : Bool :=
  it.visibility == .public

/-- `can_format_item`. -/
def canFormatItem (it : Item) : Bool :=
  match it.inner with
  | .structItem => true
  | .enumItem => true
  | .functionItem => true
  | .traitItem => true
  | .module _ => true
  | .constantItem => true
  | .typeAliasItem => true
  | _ => false

/-- `get_item_prefix` (the rustdoc-style filename tag per item kind). -/
def getItemPfx (it : Item) : String :=
  match it.inner with
  | .functionItem => "fn."
  | .structItem => "struct."
  | .enumItem => "enum."
  | .traitItem => "trait."
  | .constantItem => "constant."
  | .typeAliasItem => "type."
  | _ => ""

/-- `get_item_type_label`. -/
def getItemTypeLabel (it : Item) : String :=
  match it.inner with
  | .functionItem => "Function"
  | .structItem => "Struct"
  | .enumItem => "Enum"
  | .traitItem => "Trait"
  | .constantItem => "Constant"
  | .typeAliasItem => "Type"
  | .module _ => "Module"
  | _ => ""

/-! ## Re-export resolver (`resolve_reexport_chain`) -/

/-- Worker for `resolve_reexport_chain`, structurally recursive on a
fuel argument maintained equal to `11 - depth`: the depth guard
(`depth > 10` yields `none`) fires strictly before the fuel can reach 0
on the recursive path, so the fuel-exhausted arm is unreachable from the
entry point (`resolveGo_fuel_irrelevant` below certifies that the result
never depends on a sufficient fuel value). -/
def resolveGo (crate : Crate) : Nat → Nat → Nat → List Nat → Option (Nat × Item)
  | fuel, itemId, depth, visited =>
    if depth > 10 then none
    else if visited.contains itemId then none
    else
      match lookupId crate.index itemId with
      | some it =>
        match it.inner with
        | .useItem _ _ (some importedId) _ =>
          match fuel with
          | 0 => none
          | fuel' + 1 =>
            resolveGo crate fuel' importedId (depth + 1) (itemId :: visited)
        | _ => some (itemId, it)
      | none => none

/-- `resolve_reexport_chain`: follow a chain of `Use` targets, bounded by
`MAX_DEPTH = 10` and by the visited set (the `&mut HashSet` of the source
is threaded explicitly; it only ever grows along the single chain). -/
def resolveReexportChain (crate : Crate) (itemId : Nat) (depth : Nat)
    (visited : List Nat) : Option (Nat × Item) :=
  resolveGo crate (11 - depth) itemId depth visited

/-! ## Module assigner (`group_by_module`) -/

/-- Bucket map: module path key → owned `(id, item)` pairs, as produced
by `group_by_module`. -/
abbrev Buckets := List (String × List (Nat × Item))

/-- `modules.entry(key).or_default().push(pair)` on the association-list
model of the bucket map. -/
def pushEntry (m : Buckets) (key : String) (pair : Nat × Item) : Buckets :=
  match m with
  | [] => [(key, [pair])]
  | (k, l) :: rest =>
    if k == key then (k, l ++ [pair]) :: rest
    else (k, l) :: pushEntry rest key pair

/-- First loop of `group_by_module`: assign every renderable, visible,
non-root item to the bucket of its owning module path (all path segments
but the last; a single-segment path buckets under the crate name). -/
def assignPass (crate : Crate) (itemPaths : List (Nat × List String))
    (includePrivate : Bool) : Buckets :=
  crate.index.foldl (fun m p =>
    let id := p.1
    let it := p.2
    if id == crate.root then m
    else if !includePrivate && !isPublic it then m
    else if !canFormatItem it then m
    else
      match lookupId itemPaths id with
      | some path =>
        if path.length > 1 then
          pushEntry m (joinSep "::" path.dropLast) (id, it)
        else if path.length == 1 then
          pushEntry m (joinSep "::" path) (id, it)
        else m
      | none => m) []

/-- Body of the glob-copy inner loop of `group_by_module`: copy each
visible, renderable, non-`Use`, non-`Module` member of the resolved glob
target into the containing module's bucket. -/
def globCopyMembers (crate : Crate) (includePrivate : Bool)
    (modulePath : String) (importedMembers : List Nat) (m : Buckets) : Buckets :=
  importedMembers.foldl (fun m impId =>
    match lookupId crate.index impId with
    | none => m
    | some impItem =>
      if !includePrivate && !isPublic impItem then m
      else if !canFormatItem impItem then m
      else
        match impItem.inner with
        | .useItem _ _ _ _ => m
        | .module _ => m
        | _ => pushEntry m modulePath (impId, impItem)) m

/-- One `Use` member of a module, as processed by the second loop of
`group_by_module`: record the re-export itself, then, for a glob whose
raw target is not the containing module itself and whose resolved target
is a module that is not a path-ancestor of the containing module, copy
the target module's members. -/
def processUseMember (crate : Crate) (itemPaths : List (Nat × List String))
    (includePrivate : Bool) (moduleId : Nat) (modulePath : String)
    (m : Buckets) (itemId : Nat) (it : Item)
    (target : Option Nat) (isGlob : Bool) : Buckets :=
  if !includePrivate && !isPublic it then m
  else
    let m := pushEntry m modulePath (itemId, it)
    if isGlob then
      match target with
      | some importedId =>
        if importedId == moduleId then m
        else
          match resolveReexportChain crate importedId 0 [] with
          | some (resolvedId, importedItem) =>
            match importedItem.inner with
            | .module importedMembers =>
              let importedModulePath :=
                (lookupId itemPaths resolvedId).map (joinSep "::")
              match importedModulePath with
              | some ip =>
                if strStartsWith modulePath (ip ++ "::") then m
                else globCopyMembers crate includePrivate modulePath importedMembers m
              | none =>
                globCopyMembers crate includePrivate modulePath importedMembers m
            | _ => m
          | none => m
      | none => m
    else m

/-- Second loop of `group_by_module`: for every module of the index with
a path-table entry, walk its member list and process each `Use` member. -/
def globPass (crate : Crate) (itemPaths : List (Nat × List String))
    (includePrivate : Bool) (m0 : Buckets) : Buckets :=
  crate.index.foldl (fun m p =>
    match p.2.inner with
    | .module memberIds =>
      match lookupId itemPaths p.1 with
      | none => m
      | some path =>
        let modulePath := joinSep "::" path
        memberIds.foldl (fun m itemId =>
          match lookupId crate.index itemId with
          | none => m
          | some it =>
            match it.inner with
            | .useItem _ _ target isGlob =>
              processUseMember crate itemPaths includePrivate p.1 modulePath
                m itemId it target isGlob
            | _ => m) m
    | _ => m) m0

/-- Sort key of a bucket element: `item.name.as_deref().unwrap_or("")`. -/
def nameOf (p : Nat × Item) : String :=
  p.2.name.getD ""

/-- Stable insertion of `a` after every already-placed element `b` with
`le b a` (together with `foldl`, a stable sort — the unique stable
ascending reordering, hence the same list Rust's stable `sort_by`
produces). -/
def insBy {α : Type} (le : α → α → Bool) (a : α) : List α → List α
  | [] => [a]
  | b :: l => if le b a then b :: insBy le a l else a :: b :: l

/-- Stable sort by `le` (model of `Vec::sort_by` for the total preorder
given by comparing names). -/
def insertionSortBy {α : Type} (le : α → α → Bool) (l : List α) : List α :=
  l.foldl (fun acc a => insBy le a acc) []

/-- Worker for `dedupAdjByIds`: drop every element whose id equals the id
of the last retained element. -/
def dedupAdjGo (prev : Nat) : List (Nat × Item) → List (Nat × Item)
  | [] => []
  | b :: l => if b.1 == prev then dedupAdjGo prev l else b :: dedupAdjGo b.1 l

/-- Model of `Vec::dedup_by(|a, b| a.0 == b.0)`: remove all but the first
of each run of consecutive elements with equal ids. -/
def dedupAdjByIds : List (Nat × Item) → List (Nat × Item)
  | [] => []
  | a :: l => a :: dedupAdjGo a.1 l

/-- Name comparison used by the final sort of `group_by_module`. -/
def nameLe (a b : Nat × Item) : Bool :=
  strLe (nameOf a) (nameOf b)

/-- Final pass of `group_by_module`: sort each bucket by name (stably)
and remove consecutive duplicate ids. -/
def sortDedupBuckets (m : Buckets) : Buckets :=
  m.map (fun kl => (kl.1, dedupAdjByIds (insertionSortBy nameLe kl.2)))

/-- `group_by_module`. -/
def groupByModule (crate : Crate) (itemPaths : List (Nat × List String))
    (includePrivate : Bool) : Buckets :=
  sortDedupBuckets
    (globPass crate itemPaths includePrivate
      (assignPass crate itemPaths includePrivate))

/-- The key set of the bucket map. -/
def bucketKeys (m : Buckets) : List String :=
  m.map (·.1)

/-! ## Link resolver (`generate_type_link_depth`) -/

/-- The denylist of internal implementation module segments filtered out
of external documentation URLs. -/
def internalModules : List String :=
  ["bounded", "unbounded", "inner", "private", "imp"]

/-- Module path derived from a span filename: the text between the last
`"/src/"` and the last `".rs"`, with `"lib"`/`"main"` meaning the crate
root (the span fallback of the local branch). -/
def spanModulePath (filename : String) : Option String :=
  match rfindSubIdx "/src/".data filename.data with
  | none => none
  | some srcIdx =>
    let afterSrc := strDropN filename (srcIdx + 5)
    match rfindSubIdx ".rs".data afterSrc.data with
    | none => none
    | some rsIdx =>
      let modulePath := strTakeN afterSrc rsIdx
      if modulePath == "lib" || modulePath == "main" then some ""
      else some modulePath

/-- Kind tag (with trailing dot) for a workspace-crate link, from the
path-table kind, defaulting to `"struct."`. -/
def kindTagDot (k : PathItemKind) : String :=
  match k with
  | .kStruct => "struct."
  | .kEnum => "enum."
  | .kTrait => "trait."
  | .kFunction => "fn."
  | .kTypeAlias => "type."
  | .kConstant => "constant."
  | _ => "struct."

/-- Kind tag (no dot) for a docs.rs link, from the path-table kind,
defaulting to `"struct"`. -/
def kindTag (k : PathItemKind) : String :=
  match k with
  | .kStruct => "struct"
  | .kEnum => "enum"
  | .kTrait => "trait"
  | .kFunction => "fn"
  | .kTypeAlias => "type"
  | .kConstant => "constant"
  | _ => "struct"

/-- The static fallback table of extremely common standard-library type
names (the single-segment last resort). -/
def stdFallbackTable (typeName : String) : Option String :=
  if typeName == "String" then some "https://doc.rust-lang.org/std/string/struct.String.html"
  else if typeName == "Vec" then some "https://doc.rust-lang.org/std/vec/struct.Vec.html"
  else if typeName == "Option" then some "https://doc.rust-lang.org/std/option/enum.Option.html"
  else if typeName == "Result" then some "https://doc.rust-lang.org/std/result/enum.Result.html"
  else if typeName == "Box" then some "https://doc.rust-lang.org/std/boxed/struct.Box.html"
  else if typeName == "Rc" then some "https://doc.rust-lang.org/std/rc/struct.Rc.html"
  else if typeName == "Arc" then some "https://doc.rust-lang.org/std/sync/struct.Arc.html"
  else if typeName == "HashMap" then some "https://doc.rust-lang.org/std/collections/struct.HashMap.html"
  else if typeName == "HashSet" then some "https://doc.rust-lang.org/std/collections/struct.HashSet.html"
  else if typeName == "BTreeMap" then some "https://doc.rust-lang.org/std/collections/struct.BTreeMap.html"
  else if typeName == "BTreeSet" then some "https://doc.rust-lang.org/std/collections/struct.BTreeSet.html"
  else if typeName == "Mutex" then some "https://doc.rust-lang.org/std/sync/struct.Mutex.html"
  else if typeName == "RwLock" then some "https://doc.rust-lang.org/std/sync/struct.RwLock.html"
  else if typeName == "Cell" then some "https://doc.rust-lang.org/std/cell/struct.Cell.html"
  else if typeName == "RefCell" then some "https://doc.rust-lang.org/std/cell/struct.RefCell.html"
  else if typeName == "Path" then some "https://doc.rust-lang.org/std/path/struct.Path.html"
  else if typeName == "PathBuf" then some "https://doc.rust-lang.org/std/path/struct.PathBuf.html"
  else none

/-- Local branch of the resolver (reached when the item is local and
present in the index).  Mirrors lines 1944-2059 of `converter.rs`: the
`?`-escapes on a missing or unnamed root yield `none`; the target module
path comes from the path table, with the span filename as fallback; the
destination is base prefix + crate name + module path + kind tag + name.
(The `_current_module_path` computation of the source is bound to an
underscore variable and never read, so it is omitted.) -/
def localLink (fullPath : String) (itemId : Nat) (crate : Crate)
    (it : Item) (basePath : String) : Option String :=
  match lookupId crate.index crate.root with
  | none => none
  | some rootIt =>
    match rootIt.name with
    | none => none
    | some _ =>
      let pfx := getItemPfx it
      let targetModulePath : Option String :=
        match lookupId crate.paths itemId with
        | some pathInfo =>
          let pathComponents := pathInfo.path
          if pathComponents.length > 2 then
            some (joinSep "/" (pathComponents.drop 1).dropLast)
          else
            some ""
        | none =>
          match it.spanFilename with
          | some filename => spanModulePath filename
          | none => none
      let pathSegments := strSplitOnSub fullPath "::"
      let typeName := pathSegments.getLastD fullPath
      let crateName := pathSegments.headD ""
      let basePfx := if basePath.data.isEmpty then "" else basePath
      match targetModulePath with
      | some targetPath =>
        if targetPath.data.isEmpty then
          some (basePfx ++ "/" ++ crateName ++ "/" ++ pfx ++ typeName)
        else
          some (basePfx ++ "/" ++ crateName ++ "/" ++ targetPath ++ "/" ++ pfx ++ typeName)
      | none =>
        some (basePfx ++ "/" ++ crateName ++ "/" ++ pfx ++ typeName)

/-- The standard-library branch (crate name `std`/`core`/`alloc`):
curated alias redirects, then a doc.rust-lang.org URL with the internal
segments filtered and the kind guessed from naming heuristics. -/
def stdLibLink (fullPath : String) (pathParts : List String)
    (crateName : String) : Option String :=
  match pathParts.getLast? with
  | none => none
  | some typeName =>
    if fullPath == "core::fmt::Result" || fullPath == "std::fmt::Result" then
      some "https://doc.rust-lang.org/std/result/enum.Result.html"
    else if crateName == "core" && fullPath == "core::result::Result" then
      some "https://doc.rust-lang.org/std/result/enum.Result.html"
    else if crateName == "core" && fullPath == "core::option::Option" then
      some "https://doc.rust-lang.org/std/option/enum.Option.html"
    else
      let moduleParts :=
        ((pathParts.drop 1).dropLast).filter (fun part => !internalModules.contains part)
      let modulePath := joinSep "/" moduleParts
      let itemType :=
        if strEndsWith typeName "Error" || typeName == "Option" || typeName == "Result"
        then "enum" else "struct"
      some ("https://doc.rust-lang.org/" ++ crateName ++ "/" ++ modulePath ++ "/"
        ++ itemType ++ "." ++ typeName ++ ".html")

/-- Sibling-project membership test: both the reported external library
name and each configured workspace name are normalized by replacing
hyphens with underscores before comparison. -/
def isWorkspaceCrate (realCrateName : String) (workspaceCrates : List String) : Bool :=
  let normalizedCrateName := strReplaceSub realCrateName "-" "_"
  workspaceCrates.any (fun c => strReplaceSub c "-" "_" == normalizedCrateName)

/-- The workspace-sibling branch: an internal link rooted at the reported
external crate name, built exactly like a local link. -/
def workspaceLink (itemId : Nat) (crate : Crate) (pathParts : List String)
    (realCrateName : String) (basePath : String) : Option String :=
  let pfx :=
    match lookupId crate.paths itemId with
    | some p => kindTagDot p.kind
    | none => "struct."
  match pathParts.getLast? with
  | none => none
  | some typeName =>
    let moduleParts :=
      ((pathParts.drop 1).dropLast).filter (fun part => !internalModules.contains part)
    let modulePath := joinSep "/" moduleParts
    let basePfx := if basePath.data.isEmpty then "" else basePath
    if modulePath.data.isEmpty then
      some (basePfx ++ "/" ++ realCrateName ++ "/" ++ pfx ++ typeName)
    else
      some (basePfx ++ "/" ++ realCrateName ++ "/" ++ modulePath ++ "/" ++ pfx ++ typeName)

/-- The third-party branch: a docs.rs URL from the reported crate name,
filtered module path, path-table kind tag and item name. -/
def docsRsLink (itemId : Nat) (crate : Crate) (pathParts : List String)
    (realCrateName : String) : Option String :=
  let itemKind :=
    match lookupId crate.paths itemId with
    | some p => kindTag p.kind
    | none => "struct"
  match pathParts.getLast? with
  | none => none
  | some typeName =>
    let moduleParts :=
      ((pathParts.drop 1).dropLast).filter (fun part => !internalModules.contains part)
    let modulePath := joinSep "/" moduleParts
    if modulePath.data.isEmpty then
      some ("https://docs.rs/" ++ realCrateName ++ "/latest/" ++ realCrateName
        ++ "/" ++ itemKind ++ "." ++ typeName ++ ".html")
    else
      some ("https://docs.rs/" ++ realCrateName ++ "/latest/" ++ realCrateName
        ++ "/" ++ modulePath ++ "/" ++ itemKind ++ "." ++ typeName ++ ".html")

/-- `generate_type_link_depth`: the link resolver.  The two thread-local
cells it reads (`BASE_PATH`, `WORKSPACE_CRATES`), set once per conversion
run, are passed as the explicit read-only arguments `basePath` and
`workspaceCrates`. -/
def generateTypeLinkDepth (fullPath0 : String) (itemId : Nat) (crate : Crate)
    (currentItem : Option Item) (depth : Nat)
    (basePath : String) (workspaceCrates : List String) : Option String :=
  if _hd : depth ≥ 10 then none
  else
    let fullPath :=
      if depth == 0 then
        match lookupId crate.paths itemId with
        | some pathInfo => joinSep "::" pathInfo.path
        | none =>
          if strStartsWith fullPath0 "$crate" then
            strReplaceSub fullPath0 "$crate" "unknown"
          else fullPath0
      else fullPath0
    let isLocal :=
      match lookupId crate.paths itemId with
      | some pathInfo => pathInfo.crateId == 0
      | none => (lookupId crate.index itemId).isSome
    let localResult : Option (Option String) :=
      if isLocal then
        match lookupId crate.index itemId with
        | some it => some (localLink fullPath itemId crate it basePath)
        | none => none
      else none
    match localResult with
    | some r => r
    | none =>
      let pathParts := strSplitOnSub fullPath "::"
      if pathParts.length ≥ 2 then
        let crateName := pathParts.headD ""
        if crateName == "std" || crateName == "core" || crateName == "alloc" then
          stdLibLink fullPath pathParts crateName
        else
          let realCrateName :=
            match lookupId crate.paths itemId with
            | some pathInfo =>
              if pathInfo.crateId != 0 then
                match lookupId crate.externalCrates pathInfo.crateId with
                | some n => n
                | none => crateName
              else crateName
            | none => crateName
          if isWorkspaceCrate realCrateName workspaceCrates then
            workspaceLink itemId crate pathParts realCrateName basePath
          else
            docsRsLink itemId crate pathParts realCrateName
      else if pathParts.length == 1 then
        let typeName := pathParts.headD ""
        match lookupId crate.paths itemId with
        | some pathInfo =>
          let fullPathFromPaths := joinSep "::" pathInfo.path
          if fullPathFromPaths != fullPath then
            generateTypeLinkDepth fullPathFromPaths itemId crate currentItem
              (depth + 1) basePath workspaceCrates
          else stdFallbackTable typeName
        | none => stdFallbackTable typeName
      else none
termination_by 10 - depth
decreasing_by
  omega

/-- `generate_type_link` (entry point at depth 0). -/
def generateTypeLink (fullPath : String) (itemId : Nat) (crate : Crate)
    (currentItem : Option Item) (basePath : String)
    (workspaceCrates : List String) : Option String :=
  generateTypeLinkDepth fullPath itemId crate currentItem 0 basePath workspaceCrates

/-- The per-run configuration held in the thread-local cells
(`BASE_PATH`, `WORKSPACE_CRATES`, `SIDEBAR_ROOT_LINK`), set once at the
start of `convert_to_markdown_multifile`. -/
structure ConvCtx where
  basePath : String
  workspaceCrates : List String
  sidebarRootLink : Option String
  deriving DecidableEq, Repr

/-- The link resolver as it runs inside a conversion: reading its two
configuration values out of the per-run context. -/
def generateTypeLinkCtx (fullPath : String) (itemId : Nat) (crate : Crate)
    (currentItem : Option Item) (depth : Nat) (ctx : ConvCtx) : Option String :=
  generateTypeLinkDepth fullPath itemId crate currentItem depth
    ctx.basePath ctx.workspaceCrates

/-! ## Sidebar builder (`generate_sidebar_for_module` and helpers) -/

/-- `SidebarItem`. -/
inductive SidebarItem where
  | doc (id : String) (label : Option String) (customProps : Option String)
  | link (href : String) (label : String) (customProps : Option String)
  | category (label : String) (items : List SidebarItem) (collapsed : Bool)
      (link : Option String)
  | html (value : String) (defaultStyle : Bool)
  deriving Repr

/-- `module_has_public_content`: does the member list contain any item,
present in the index, that is not a re-export? -/
def moduleHasPublicContent (itemIds : List Nat) (index : List (Nat × Item)) : Bool :=
  itemIds.any (fun id =>
    match lookupId index id with
    | some it =>
      match it.inner with
      | .useItem _ _ _ _ => false
      | _ => true
    | none => false)

/-- `entry(key).or_default().push(item)` for the by-type map of the
sidebar builder. -/
def pushByType (m : List (String × List Item)) (key : String) (it : Item) :
    List (String × List Item) :=
  match m with
  | [] => [(key, [it])]
  | (k, l) :: rest =>
    if k == key then (k, l ++ [it]) :: rest
    else (k, l) :: pushByType rest key it

/-- Category label per item kind (`Use` and unclassified kinds yield
`none`, the `continue` arms). -/
def sidebarTypeName (it : Item) : Option String :=
  match it.inner with
  | .useItem _ _ _ _ => none
  | .module _ => some "Modules"
  | .structItem => some "Structs"
  | .structFieldItem => some "Structs"
  | .enumItem => some "Enums"
  | .variantItem => some "Enums"
  | .functionItem => some "Functions"
  | .traitItem => some "Traits"
  | .constantItem => some "Constants"
  | .typeAliasItem => some "Type Aliases"
  | .mcrItem => some "Macros"
  | .procMcrItem => some "Proc Macros"
  | .staticItem => some "Statics"
  | .otherItem => none

/-- The fixed category order of the sidebar builder. -/
def typeOrder : List String :=
  ["Modules", "Macros", "Proc Macros", "Structs", "Enums",
   "Traits", "Functions", "Type Aliases", "Constants", "Statics"]

/-- Join a doc id under the sidebar prefix (the repeated
`if sidebar_prefix.is_empty() ... else ...` of the source). -/
def underPfx (sidebarPfx p : String) : String :=
  if sidebarPfx.data.isEmpty then p else sidebarPfx ++ "/" ++ p

/-- CSS class for a non-module sidebar entry, from its filename tag. -/
def sidebarClassOf (pfx : String) : String :=
  if strStartsWith pfx "struct." then "rust-struct"
  else if strStartsWith pfx "enum." then "rust-struct"
  else if strStartsWith pfx "trait." then "rust-trait"
  else if strStartsWith pfx "fn." then "rust-fn"
  else if strStartsWith pfx "constant." then "rust-constant"
  else if strStartsWith pfx "type." then "rust-type"
  else "rust-item"

/-- Inner loop of the category builder: one `SidebarItem::Doc` per named
item, where a module item is dropped unless `module_has_public_content`
holds of its members. -/
def sidebarCategoryItems (typeName modulePath sidebarPfx : String)
    (index : List (Nat × Item)) (itemsOfType : List Item) : List SidebarItem :=
  itemsOfType.foldl (fun ci it =>
    match it.name with
    | none => ci
    | some name =>
      if typeName == "Modules" then
        match it.inner with
        | .module memberIds =>
          if !moduleHasPublicContent memberIds index then ci
          else
            ci ++ [SidebarItem.doc
              (underPfx sidebarPfx (modulePath ++ "/" ++ name ++ "/index"))
              (some name) (some "rust-mod")]
        | _ =>
          ci ++ [SidebarItem.doc
            (underPfx sidebarPfx (modulePath ++ "/" ++ name ++ "/index"))
            (some name) (some "rust-mod")]
      else
        let pfx := getItemPfx it
        ci ++ [SidebarItem.doc
          (underPfx sidebarPfx (modulePath ++ "/" ++ pfx ++ name))
          (some name) (some (sidebarClassOf pfx))]) []

/-- The `customProps` JSON payload carrying crate name and version. -/
def crateTitleProps (crateName : String) (crateVersion : Option String) : String :=
  "\x7b rustCrateTitle: true, crateName: " ++ sqStr ++ crateName ++ sqStr
    ++ ", version: " ++ sqStr ++ crateVersion.getD "" ++ sqStr ++ " \x7d"

/-- Label used when sorting the root "Crates" section. -/
def sidebarLabelOf (si : SidebarItem) : String :=
  match si with
  | .doc _ label _ => label.getD ""
  | .link _ label _ => label
  | .category label _ _ _ => label
  | .html _ _ => ""

/-- `generate_sidebar_for_module`.  The thread-local cells it reads
(`SIDEBAR_ROOT_LINK` in the root branch, `WORKSPACE_CRATES` for the
root-crate "Crates" section) are the explicit arguments `sidebarRootLink`
and `workspaceCrates`. -/
def generateSidebarForModule (crateName moduleKey : String) (modules : Buckets)
    (crate : Crate) (sidebarPfx : String) (sidebarCollapsed : Bool)
    (isRoot : Bool) (crateVersion : Option String)
    (sidebarRootLink : Option String) (workspaceCrates : List String) :
    List SidebarItem :=
  let moduleItems := (lookupStr modules moduleKey).getD []
  let modulePath := strReplaceSub moduleKey "::" "/"
  let crateRootPath := underPfx sidebarPfx (crateName ++ "/index")
  let headerItems :=
    if isRoot then
      (match sidebarRootLink with
       | some l => [SidebarItem.link l "← Go back" (some "rust-sidebar-back-link")]
       | none => []) ++
      [SidebarItem.doc crateRootPath (some crateName)
        (some (crateTitleProps crateName crateVersion))]
    else
      [SidebarItem.doc crateRootPath (some crateName)
        (some (crateTitleProps crateName crateVersion)),
       SidebarItem.doc (underPfx sidebarPfx (modulePath ++ "/index"))
        (some "Overview") (some "rust-mod")]
  let byType := moduleItems.foldl (fun bt p =>
    match sidebarTypeName p.2 with
    | some tn => pushByType bt tn p.2
    | none => bt) []
  let withCategories := typeOrder.foldl (fun acc typeName =>
    match lookupStr byType typeName with
    | none => acc
    | some itemsOfType =>
      let categoryItems :=
        sidebarCategoryItems typeName modulePath sidebarPfx crate.index itemsOfType
      if categoryItems.isEmpty then acc
      else acc ++ [SidebarItem.category typeName categoryItems sidebarCollapsed none])
    headerItems
  if !isRoot then
    let parentAndLabel : Option String × String :=
      if strContainsSub moduleKey "::" then
        let parent := joinSep "::" ((strSplitOnSub moduleKey "::").dropLast)
        (some parent, "In " ++ parent)
      else
        (none, "In crate " ++ crateName)
    let parentModule := parentAndLabel.1
    let siblingsLabel := parentAndLabel.2
    let siblingModules := (modules.map (·.1)).filter (fun key =>
      match parentModule with
      | some parent =>
        if strContainsSub key "::" then
          let keyParent := joinSep "::" ((strSplitOnSub key "::").dropLast)
          keyParent == parent &&
            countSubMatches key "::" == countSubMatches moduleKey "::"
        else false
      | none =>
        countSubMatches key "::" == countSubMatches moduleKey "::" &&
          key != crateName)
    let siblingModules := insertionSortBy strLe siblingModules
    if !siblingModules.isEmpty then
      let siblingItems := siblingModules.map (fun siblingKey =>
        let siblingPath := strReplaceSub siblingKey "::" "/"
        SidebarItem.doc (underPfx sidebarPfx (siblingPath ++ "/index"))
          (some ((strSplitOnSub siblingKey "::").getLastD siblingKey))
          (some "rust-mod"))
      withCategories ++ [SidebarItem.category siblingsLabel siblingItems false none]
    else withCategories
  else
    if workspaceCrates.length > 1 then
      let crateItems := workspaceCrates.map (fun cn =>
        SidebarItem.doc
          (underPfx sidebarPfx (strReplaceSub cn "-" "_" ++ "/index"))
          (some cn) (some "rust-mod"))
      let crateItems := insertionSortBy
        (fun a b => strLe (sidebarLabelOf a) (sidebarLabelOf b)) crateItems
      withCategories ++ [SidebarItem.category "Crates" crateItems false none]
    else withCategories

/-! ## Conversion pipeline (`convert_to_markdown_multifile`)

Page bodies and the serialized sidebar string are per-item rendering,
excluded collaborators in the architecture (spec §1/§2); the pipeline is
embedded down to the *key set* of the `files` map it assembles, which is
determined without rendering: `format_item_with_path` returns `Some`
exactly when the item has a path-table entry and a renderable kind. -/

/-- The keys `generate_individual_pages` inserts into `files`: one
`<tag><name>.md` per named, renderable, non-`Use`, non-`Module` item that
has a path-table entry. -/
def individualPageKeys (items : List (Nat × Item)) (pathPfx : String)
    (itemPaths : List (Nat × List String)) : List String :=
  items.foldl (fun acc p =>
    let it := p.2
    match it.inner with
    | .useItem _ _ _ _ => acc
    | .module _ => acc
    | _ =>
      match it.name with
      | none => acc
      | some name =>
        match lookupId itemPaths p.1 with
        | none => acc
        | some _ =>
          if canFormatItem it then acc ++ [pathPfx ++ getItemPfx it ++ name ++ ".md"]
          else acc) []

/-- The observable shape of `MarkdownOutput`: the crate name and the keys
of the `files` map, in insertion order. -/
structure MarkdownOutputShape where
  crateName : String
  fileKeys : List String
  deriving DecidableEq, Repr

/-- `convert_to_markdown_multifile`, embedded down to the key set of its
`files` map: a missing root item is an immediate error; otherwise
`index.md` plus, per non-root module bucket, the module's `index.md` and
its item pages. -/
def convertToMarkdownMultifile (crate : Crate) (includePrivate : Bool)
    (_basePath : String) (_workspaceCrates : List String) (_collapsed : Bool)
    (_sidebarRootLink : Option String) : Except String MarkdownOutputShape :=
  match lookupId crate.index crate.root with
  | none => .error "Root item not found in index"
  | some rootItem =>
    let crateName := rootItem.name.getD "unknown"
    let itemPaths := buildPathMap crate
    let modules := groupByModule crate itemPaths includePrivate
    let rootModuleKey := crateName
    let files := modules.foldl (fun fs kl =>
      let moduleName := kl.1
      if moduleName == rootModuleKey then
        fs ++ individualPageKeys kl.2 "" itemPaths
      else
        let moduleFilename :=
          strReplaceSub ((strStripPfx moduleName (crateName ++ "::")).getD moduleName)
            "::" "/"
        let itemPfx :=
          if moduleFilename.data.isEmpty then "" else moduleFilename ++ "/"
        fs ++ [moduleFilename ++ "/index.md"]
          ++ individualPageKeys kl.2 itemPfx itemPaths) ["index.md"]
    .ok { crateName := crateName, fileKeys := files }

/-- The doc ids collected under every category with the given label, a
projection used to state which entries a category lists. -/
def docIdsOfCategory (label : String) (items : List SidebarItem) : List String :=
  items.foldl (fun acc si =>
    match si with
    | .category l cis _ _ =>
      if l == label then
        acc ++ cis.foldl (fun a ci =>
          match ci with
          | .doc id _ _ => a ++ [id]
          | _ => a) []
      else acc
    | _ => acc) []

/-! ## Sidebar persistence merge (`writer.rs`) -/

/-- Parser state of the `parse_entries` closure of `merge_rust_sidebars`
(`in_key` of the source is never read and is omitted). -/
structure ParseState where
  results : List (String × String)
  currentKey : String
  currentValue : String
  braceDepth : Int
  inValue : Bool
  deriving DecidableEq, Repr

/-- One character of the brace-counting loop of `parse_entries`. -/
def parseEntriesChar (st : ParseState) (ch : Char) : ParseState :=
  if ch == '[' || ch == '\x7b' then
    { st with braceDepth := st.braceDepth + 1 }
  else if ch == ']' || ch == '\x7d' then
    let d := st.braceDepth - 1
    if d == 0 then
      { st with braceDepth := d,
                results := st.results ++ [(st.currentKey, st.currentValue)],
                currentKey := "", currentValue := "", inValue := false }
    else { st with braceDepth := d }
  else st

/-- One line of `parse_entries`: a line whose trimmed form starts with a
single quote and contains a quote-colon-bracket marker begins a new entry
(saving the previous one); otherwise a line inside a value is appended
and its brackets counted. -/
def parseEntriesLine (st : ParseState) (line : String) : ParseState :=
  let trimmed := strTrim line
  if strStartsWith trimmed sqStr && strContainsSub trimmed (sqStr ++ ": [") then
    let st :=
      if !st.currentKey.data.isEmpty then
        { st with results := st.results ++ [(st.currentKey, st.currentValue)] }
      else st
    match findSubIdx [sqChar] (strDropN trimmed 1).data with
    | some endQuote =>
      { st with currentKey := strSlice trimmed 1 (endQuote + 1),
                currentValue := line ++ "\n",
                inValue := true,
                braceDepth := 1 }
    | none => st
  else if st.inValue then
    let st := { st with currentValue := st.currentValue ++ line ++ "\n" }
    line.data.foldl parseEntriesChar st
  else st

/-- `parse_entries`: split a `rustSidebars` body into
`(key, verbatim text)` pairs. -/
def parseEntries (content : String) : List (String × String) :=
  let final := (strLines content).foldl parseEntriesLine ⟨[], "", "", 0, false⟩
  if final.currentKey.data.isEmpty then final.results
  else final.results ++ [(final.currentKey, final.currentValue)]

/-- `HashMap::insert` (overwrite on an existing key) on the
association-list model. -/
def insertAssoc (m : List (String × String)) (k v : String) :
    List (String × String) :=
  if (m.find? (fun p => p.1 == k)).isSome then
    m.map (fun p => if p.1 == k then (p.1, v) else p)
  else m ++ [(k, v)]

/-- The parsed entries of one body, inserted into an (initially empty)
map. -/
def parseEntriesMap (content : String) : List (String × String) :=
  (parseEntries content).foldl (fun m kv => insertAssoc m kv.1 kv.2) []

/-- The `entries_map` of `merge_rust_sidebars`: existing entries
inserted first, then the new entries inserted over them (overwriting
duplicate keys). -/
def mergeEntriesMap (existingEntries newEntries : String) :
    List (String × String) :=
  let m := (parseEntries existingEntries).foldl (fun m kv => insertAssoc m kv.1 kv.2) []
  (parseEntries newEntries).foldl (fun m kv => insertAssoc m kv.1 kv.2) m

/-- Serialize the merged map: values in sorted key order, a comma added
between entries that do not already end in one. -/
def buildMergedEntries (m : List (String × String)) : String :=
  let sortedKeys := insertionSortBy strLe (m.map (·.1))
  (sortedKeys.enum).foldl (fun acc p =>
    match lookupStr m p.2 with
    | none => acc
    | some value =>
      let acc := acc ++ value
      if p.1 < sortedKeys.length - 1 && !(strEndsWith (strTrimEnd value) ",") then
        acc ++ ","
      else acc) ""

/-- One line of `generate_root_sidebar`: collect `(doc id, label)` from
every line carrying a crate-title marker, first occurrence per doc id. -/
def rootSidebarLine (st : List String × List (String × String)) (line : String) :
    List String × List (String × String) :=
  let trimmed := strTrim line
  if strContainsSub trimmed "rustCrateTitle: true" &&
      strContainsSub trimmed ("type: " ++ sqStr ++ "doc" ++ sqStr) then
    match findSubIdx ("id: " ++ sqStr).data trimmed.data with
    | none => st
    | some idStart =>
      match findSubIdx [sqChar] (strDropN trimmed (idStart + 5)).data with
      | none => st
      | some idEnd =>
        let docId := strSlice trimmed (idStart + 5) (idStart + 5 + idEnd)
        match findSubIdx ("label: " ++ sqStr).data trimmed.data with
        | none => st
        | some labelStart =>
          match findSubIdx [sqChar] (strDropN trimmed (labelStart + 8)).data with
          | none => st
          | some labelEnd =>
            let label := strSlice trimmed (labelStart + 8) (labelStart + 8 + labelEnd)
            if st.1.contains docId then st
            else (st.1 ++ [docId], st.2 ++ [(docId, label)])
  else st

/-- `generate_root_sidebar`: recompute the cross-project root sidebar
purely from the merged entries text. -/
def generateRootSidebar (mergedEntries : String) : String :=
  let crateEntries := ((strLines mergedEntries).foldl rootSidebarLine ([], [])).2
  let sorted := insertionSortBy (fun a b => strLe a.1 b.1) crateEntries
  sorted.foldl (fun out p =>
    out ++ "  \x7b type: " ++ sqStr ++ "doc" ++ sqStr ++ ", id: " ++ sqStr ++ p.1
      ++ sqStr ++ ", label: " ++ sqStr ++ p.2 ++ sqStr ++ ", className: "
      ++ sqStr ++ "rust-mod" ++ sqStr ++ " \x7d,\n") ""

/-- The opening marker of the serialized `rustSidebars` object. -/
def sidebarsStartMark : String :=
  "export const rustSidebars: Record<string, any[]> = \x7b"

/-- The closing marker of the serialized `rustSidebars` object. -/
def sidebarsEndMark : String := "\x7d;"

/-- The existing-entries extraction of `merge_rust_sidebars` (empty when
either marker is missing). -/
def extractExistingEntries (existing : String) : String :=
  match findSubIdx sidebarsStartMark.data existing.data with
  | some startPos =>
    let start := startPos + sidebarsStartMark.data.length
    match findSubIdx sidebarsEndMark.data (strDropN existing start).data with
    | some endPos => strSlice existing start (start + endPos)
    | none => ""
  | none => ""

/-- The boilerplate appended after the merged object: the recomputed
root-sidebar export. -/
def rootSidebarEpilogue (rootSidebar : String) : String :=
  "\n\n// Root sidebar with links to all crates (for main navigation)\n"
    ++ "export const rootRustSidebar = [\n" ++ rootSidebar ++ "];\n"

/-- `merge_rust_sidebars`: union the existing and new `rustSidebars`
entries (new wins per key), re-serialize inside the header/footer of the
*new* content, and append a root sidebar recomputed from the merged
entries. -/
def mergeRustSidebars (existing newContent : String) : Except String String :=
  let existingEntries := extractExistingEntries existing
  match findSubIdx sidebarsStartMark.data newContent.data with
  | none => .error "Could not find rustSidebars object in new content"
  | some newStartPos =>
    let start := newStartPos + sidebarsStartMark.data.length
    match findSubIdx sidebarsEndMark.data (strDropN newContent start).data with
    | none => .error "Could not find rustSidebars object end in new content"
    | some endPos =>
      let newEntries := strSlice newContent start (start + endPos)
      let headerEnd := newStartPos + sidebarsStartMark.data.length
      let header := strTakeN newContent headerEnd
      let footerStart := headerEnd + newEntries.data.length + sidebarsEndMark.data.length
      let footer := strDropN newContent footerStart
      let entriesMap := mergeEntriesMap existingEntries newEntries
      let mergedEntries := buildMergedEntries entriesMap
      let rootSidebar := generateRootSidebar mergedEntries
      .ok (header ++ mergedEntries ++ sidebarsEndMark ++ footer
        ++ rootSidebarEpilogue rootSidebar)

/-! ## Concrete input fixtures -/

/-- A public function item named `f`. -/
def itemFnF : Item :=
  { name := some "f", visibility := .public, inner := .functionItem,
    spanFilename := none }

/-- A crate-visible module `b` containing item 3. -/
def itemModBPriv : Item :=
  { name := some "b", visibility := .crateVis, inner := .module [3],
    spanFilename := none }

/-- A crate-visible module `a` containing item 2. -/
def itemModAPriv : Item :=
  { name := some "a", visibility := .crateVis, inner := .module [2],
    spanFilename := none }

/-- A public module `b` containing item 3. -/
def itemModBPub : Item :=
  { name := some "b", visibility := .public, inner := .module [3],
    spanFilename := none }

/-- A public module `a` containing item 2. -/
def itemModAPub : Item :=
  { name := some "a", visibility := .public, inner := .module [2],
    spanFilename := none }

/-- A public root module `demo` containing item 1. -/
def itemRootDemo : Item :=
  { name := some "demo", visibility := .public, inner := .module [1],
    spanFilename := none }

/-- Crate `demo { a { b { f } } }` where `a` and `b` are crate-visible
(not public) while `f` is public: the bucket `demo::a::b` exists but no
ancestor bucket does. -/
def deepPrivCrate : Crate :=
  { root := 0, crateVersion := none,
    index := [(0, itemRootDemo), (1, itemModAPriv), (2, itemModBPriv), (3, itemFnF)],
    paths := [(0, ⟨0, ["demo"], .kModule⟩), (1, ⟨0, ["demo", "a"], .kModule⟩),
              (2, ⟨0, ["demo", "a", "b"], .kModule⟩),
              (3, ⟨0, ["demo", "a", "b", "f"], .kFunction⟩)],
    externalCrates := [] }

/-- The same crate with `a` and `b` public: every ancestor bucket exists. -/
def deepPubCrate : Crate :=
  { root := 0, crateVersion := none,
    index := [(0, itemRootDemo), (1, itemModAPub), (2, itemModBPub), (3, itemFnF)],
    paths := [(0, ⟨0, ["demo"], .kModule⟩), (1, ⟨0, ["demo", "a"], .kModule⟩),
              (2, ⟨0, ["demo", "a", "b"], .kModule⟩),
              (3, ⟨0, ["demo", "a", "b", "f"], .kFunction⟩)],
    externalCrates := [] }

/-- A public re-export with no recorded target id. -/
def itemUseNoTarget : Item :=
  { name := none, visibility := .public, inner := .useItem "x" "x" none false,
    spanFilename := none }

/-- A crate whose only item is a re-export with no recorded target. -/
def useNoTargetCrate : Crate :=
  { root := 99, crateVersion := none, index := [(0, itemUseNoTarget)],
    paths := [], externalCrates := [] }

/-- Two re-exports forming a cycle: 0 → 1 → 0. -/
def cycleCrate : Crate :=
  { root := 99, crateVersion := none,
    index := [(0, { name := none, visibility := .public,
                    inner := .useItem "b" "b" (some 1) false, spanFilename := none }),
              (1, { name := none, visibility := .public,
                    inner := .useItem "a" "a" (some 0) false, spanFilename := none })],
    paths := [], externalCrates := [] }

/-- A crate with an empty index (for the missing-root behaviour). -/
def emptyIndexCrate : Crate :=
  { root := 0, crateVersion := none, index := [], paths := [],
    externalCrates := [] }

/-- A public struct named `S` (id 2 of `chainGlobCrate` / id 3 of
`wildcardScenarioCrate`). -/
def itemStructS : Item :=
  { name := some "S", visibility := .public, inner := .structItem,
    spanFilename := none }

/-- A second public struct also named `S` (id 3 of `chainGlobCrate`). -/
def itemStructS2 : Item :=
  { name := some "S", visibility := .public, inner := .structItem,
    spanFilename := none }

/-- A public non-glob re-export whose target is module 1. -/
def itemUseToM : Item :=
  { name := none, visibility := .public, inner := .useItem "m" "m" (some 1) false,
    spanFilename := none }

/-- A public glob re-export whose raw target is the re-export 4 (which
resolves, through the chain, to module 1 itself). -/
def itemGlobVia4 : Item :=
  { name := none, visibility := .public, inner := .useItem "m" "" (some 4) true,
    spanFilename := none }

/-- The module `m` of `chainGlobCrate`: members are the glob (5) and the
two structs (2, 3). -/
def itemModM : Item :=
  { name := some "m", visibility := .public, inner := .module [5, 2, 3],
    spanFilename := none }

/-- Crate `demo { m { S(2), S(3), pub use <4>::* } }` with `4 = use m`:
the glob inside `m` resolves back to `m` itself through a chain, so the
assigner re-copies `m`'s own items into `m`'s bucket. -/
def chainGlobCrate : Crate :=
  { root := 0, crateVersion := none,
    index := [(0, itemRootDemo), (1, itemModM), (2, itemStructS),
              (3, itemStructS2), (4, itemUseToM), (5, itemGlobVia4)],
    paths := [(0, ⟨0, ["demo"], .kModule⟩), (1, ⟨0, ["demo", "m"], .kModule⟩),
              (2, ⟨0, ["demo", "m", "S"], .kStruct⟩),
              (3, ⟨0, ["demo", "m", "S"], .kStruct⟩)],
    externalCrates := [] }

/-- The module `m` of `wildcardScenarioCrate`: its only member is the
glob re-export 10. -/
def itemModMScenario : Item :=
  { name := some "m", visibility := .public, inner := .module [10],
    spanFilename := none }

/-- The module `other` of `wildcardScenarioCrate`, containing struct 3. -/
def itemModOther : Item :=
  { name := some "other", visibility := .public, inner := .module [3],
    spanFilename := none }

/-- `pub use other::*` (glob, raw target module 2). -/
def itemGlobOther : Item :=
  { name := none, visibility := .public, inner := .useItem "other" "" (some 2) true,
    spanFilename := none }

/-- The root of `wildcardScenarioCrate`, containing modules 1 and 2. -/
def itemRootScenario : Item :=
  { name := some "demo", visibility := .public, inner := .module [1, 2],
    spanFilename := none }

/-- The spec's wildcard scenario: `demo { m { pub use other::* }, other { S } }`. -/
def wildcardScenarioCrate : Crate :=
  { root := 0, crateVersion := none,
    index := [(0, itemRootScenario), (1, itemModMScenario), (2, itemModOther),
              (3, itemStructS), (10, itemGlobOther)],
    paths := [(0, ⟨0, ["demo"], .kModule⟩), (1, ⟨0, ["demo", "m"], .kModule⟩),
              (2, ⟨0, ["demo", "other"], .kModule⟩),
              (3, ⟨0, ["demo", "other", "S"], .kStruct⟩)],
    externalCrates := [] }

/-- A crate holding one external item `foo_bar::X` reported from external
crate 2 whose name is `foo_bar`. -/
def externalXCrate : Crate :=
  { root := 0, crateVersion := none,
    index := [(0, itemRootDemo)],
    paths := [(7, ⟨2, ["foo_bar", "X"], .kStruct⟩)],
    externalCrates := [(2, "foo_bar")] }

/-- The same external item reported under the hyphenated spelling. -/
def externalXHyphenCrate : Crate :=
  { root := 0, crateVersion := none,
    index := [(0, itemRootDemo)],
    paths := [(7, ⟨2, ["foo-bar", "X"], .kStruct⟩)],
    externalCrates := [(2, "foo-bar")] }

/-- Link-resolver contexts differing only in the sidebar root link. -/
def ctxNoBack : ConvCtx :=
  { basePath := "/docs", workspaceCrates := ["w1"], sidebarRootLink := none }

/-- See `ctxNoBack`. -/
def ctxWithBack : ConvCtx :=
  { basePath := "/docs", workspaceCrates := ["w1"],
    sidebarRootLink := some "https://example.org" }

/-- An empty public module `m` (no members at all). -/
def itemModEmpty : Item :=
  { name := some "m", visibility := .public, inner := .module [],
    spanFilename := none }

/-- Crate `demo { m { } }` with `m` empty: `m` is omitted from the
sidebar's Modules category and, having no bucket, gets no index page. -/
def emptyModCrate : Crate :=
  { root := 0, crateVersion := none,
    index := [(0, itemRootDemo), (1, itemModEmpty)],
    paths := [(0, ⟨0, ["demo"], .kModule⟩), (1, ⟨0, ["demo", "m"], .kModule⟩)],
    externalCrates := [] }

/-- A public module `m` whose only member is the target-less re-export 4. -/
def itemModAllRex : Item :=
  { name := some "m", visibility := .public, inner := .module [4],
    spanFilename := none }

/-- Crate `demo { m { pub use ... } }` where every member of `m` is a
re-export: `m` is omitted from the Modules category but its bucket exists
and its index page is generated. -/
def allRexCrate : Crate :=
  { root := 0, crateVersion := none,
    index := [(0, itemRootDemo), (1, itemModAllRex), (4, itemUseNoTarget)],
    paths := [(0, ⟨0, ["demo"], .kModule⟩), (1, ⟨0, ["demo", "m"], .kModule⟩)],
    externalCrates := [] }

/-- One serialized sidebar entry with the given key. -/
def sampleEntry (key : String) : String :=
  "  " ++ sqStr ++ key ++ sqStr ++ ": [\n  ],\n"

/-- A minimal serialized sidebar file holding one entry under `key`,
with a header and footer around the `rustSidebars` object. -/
def sampleSidebarFile (key : String) : String :=
  "// generated\n" ++ sidebarsStartMark ++ "\n" ++ sampleEntry key
    ++ sidebarsEndMark ++ "\n// tail\n"

/-! ## Helper predicates and lemmas -/

/-- A predicate on bucket maps that survives any `pushEntry`. -/
def PushStable (P : Buckets → Prop) : Prop :=
  ∀ m k pr, P m → P (pushEntry m k pr)

/-- The pair `q` is a member of the bucket of key `K`. -/
def MemVal (K : String) (q : Nat × Item) (m : Buckets) : Prop :=
  ∃ l, lookupStr m K = some l ∧ q ∈ l

/-- Every pair of every bucket is the index entry of its id (the shape
every push of `group_by_module` respects). -/
def GoodPairs (crate : Crate) (m : Buckets) : Prop :=
  ∀ kl ∈ m, ∀ p ∈ kl.2, lookupId crate.index p.1 = some p.2

/-- Kinds a glob re-export copies (neither a re-export nor a module). -/
def copyableKind (it : Item) : Bool :=
  match it.inner with
  | .useItem _ _ _ _ => false
  | .module _ => false
  | _ => true

theorem mem_bucketKeys_pushEntry (m : Buckets) (k : String) (pr : Nat × Item) :
    k ∈ bucketKeys (pushEntry m k pr) := by
  induction m with
  | nil => simp [pushEntry, bucketKeys]
  | cons hd tl ih =>
    obtain ⟨a, l⟩ := hd
    by_cases h : a = k
    · simp [pushEntry, h, bucketKeys]
    · simp only [pushEntry, bucketKeys, List.map_cons]
      rw [if_neg (by simpa using h)]
      simpa [bucketKeys] using Or.inr ih

theorem mem_bucketKeys_pushEntry_of_mem (m : Buckets) (k' k : String)
    (pr : Nat × Item) (h : k' ∈ bucketKeys m) :
    k' ∈ bucketKeys (pushEntry m k pr) := by
  induction m with
  | nil => simp [bucketKeys] at h
  | cons hd tl ih =>
    obtain ⟨a, l⟩ := hd
    simp only [bucketKeys, List.map_cons, List.mem_cons] at h
    by_cases hak : a = k
    · simp only [pushEntry]
      rw [if_pos (by simpa using hak)]
      simp only [bucketKeys, List.map_cons, List.mem_cons]
      exact h
    · simp only [pushEntry]
      rw [if_neg (by simpa using hak)]
      simp only [bucketKeys, List.map_cons, List.mem_cons]
      rcases h with h | h
      · exact Or.inl h
      · exact Or.inr (ih h)

theorem pushStable_mem_bucketKeys (K : String) :
    PushStable (fun m => K ∈ bucketKeys m) := by
  intro m k pr h
  exact mem_bucketKeys_pushEntry_of_mem m K k pr h

theorem foldl_pred_mono {β : Type} (P : Buckets → Prop)
    (step : Buckets → β → Buckets) (l : List β)
    (mono : ∀ m b, P m → P (step m b)) :
    ∀ m, P m → P (l.foldl step m) := by
  induction l with
  | nil => intro m h; simpa using h
  | cons b rest ih =>
    intro m h
    simpa using ih (step m b) (mono m b h)

theorem foldl_pred_of_elem {β : Type} (P : Buckets → Prop)
    (step : Buckets → β → Buckets) (l : List β) (b0 : β) (hb : b0 ∈ l)
    (mono : ∀ m b, P m → P (step m b))
    (adds : ∀ m, P (step m b0)) :
    ∀ m, P (l.foldl step m) := by
  induction l with
  | nil => cases hb
  | cons b rest ih =>
    intro m
    rcases List.mem_cons.mp hb with h | h
    · subst h
      simpa using foldl_pred_mono P step rest mono (step m b0) (adds m)
    · simpa using ih h (step m b)

theorem pred_globCopyMembers {P : Buckets → Prop} (hP : PushStable P)
    (crate : Crate) (includePrivate : Bool) (modulePath : String)
    (importedMembers : List Nat) (m : Buckets) (h : P m) :
    P (globCopyMembers crate includePrivate modulePath importedMembers m) := by
  unfold globCopyMembers
  refine foldl_pred_mono P _ importedMembers ?_ m h
  intro m b hm
  cases hlk : lookupId crate.index b with
  | none => simpa [hlk] using hm
  | some impItem =>
    simp only [hlk]
    split
    · exact hm
    · split
      · exact hm
      · split
        · exact hm
        · exact hm
        · exact hP m modulePath _ hm

theorem pred_processUseMember {P : Buckets → Prop} (hP : PushStable P)
    (crate : Crate) (itemPaths : List (Nat × List String))
    (includePrivate : Bool) (moduleId : Nat) (modulePath : String)
    (m : Buckets) (itemId : Nat) (it : Item) (target : Option Nat)
    (isGlob : Bool) (h : P m) :
    P (processUseMember crate itemPaths includePrivate moduleId modulePath
        m itemId it target isGlob) := by
  have h1 : P (pushEntry m modulePath (itemId, it)) := hP m modulePath _ h
  unfold processUseMember
  dsimp only
  repeat' split
  all_goals first
    | exact h
    | exact h1
    | exact pred_globCopyMembers hP crate includePrivate modulePath _ _ h1

theorem pred_globPass {P : Buckets → Prop} (hP : PushStable P)
    (crate : Crate) (itemPaths : List (Nat × List String))
    (includePrivate : Bool) (m0 : Buckets) (h : P m0) :
    P (globPass crate itemPaths includePrivate m0) := by
  unfold globPass
  refine foldl_pred_mono P _ crate.index ?_ m0 h
  intro m b hm
  split
  · rename_i memberIds _
    cases hlk : lookupId itemPaths b.1 with
    | none => simpa [hlk] using hm
    | some path =>
      simp only [hlk]
      refine foldl_pred_mono P _ memberIds ?_ m hm
      intro m' i hm'
      cases hli : lookupId crate.index i with
      | none => simpa [hli] using hm'
      | some it =>
        simp only [hli]
        split
        · exact pred_processUseMember hP crate itemPaths includePrivate _ _ m' i it _ _ hm'
        · exact hm'
  · exact hm

theorem bucketKeys_sortDedupBuckets (m : Buckets) :
    bucketKeys (sortDedupBuckets m) = bucketKeys m := by
  simp [sortDedupBuckets, bucketKeys, List.map_map, Function.comp]

theorem lookupStr_sortDedupBuckets (m : Buckets) (k : String) :
    lookupStr (sortDedupBuckets m) k =
      (lookupStr m k).map (fun l => dedupAdjByIds (insertionSortBy nameLe l)) := by
  induction m with
  | nil => simp [sortDedupBuckets, lookupStr]
  | cons hd tl ih =>
    obtain ⟨a, l⟩ := hd
    by_cases h : a = k
    · simp [sortDedupBuckets, lookupStr, h]
    · simp only [sortDedupBuckets, lookupStr, List.map_cons, List.find?] at ih ⊢
      rw [show ((a == k) = false) from by simpa using h]
      simpa [sortDedupBuckets, lookupStr] using ih

theorem resolveGo_fuel_irrelevant (crate : Crate) :
    ∀ (fuel1 fuel2 itemId depth : Nat) (visited : List Nat),
      11 - depth ≤ fuel1 → 11 - depth ≤ fuel2 →
      resolveGo crate fuel1 itemId depth visited
        = resolveGo crate fuel2 itemId depth visited := by
  intro fuel1
  induction fuel1 with
  | zero =>
    intro fuel2 itemId depth visited h1 h2
    have hd : depth > 10 := by omega
    rw [resolveGo, resolveGo]
    simp [hd]
  | succ f1 ih =>
    intro fuel2 itemId depth visited h1 h2
    by_cases hd : depth > 10
    · rw [resolveGo, resolveGo]; simp [hd]
    · have hf2 : ∃ f2, fuel2 = f2 + 1 := by
        rcases fuel2 with _ | f2
        · omega
        · exact ⟨f2, rfl⟩
      obtain ⟨f2, rfl⟩ := hf2
      rw [resolveGo, resolveGo]
      by_cases hv : itemId ∈ visited
      · simp [hd, hv]
      · simp only [hd, if_false]
        have hc : visited.contains itemId = false := by simp [hv]
        simp only [hc, Bool.false_eq_true, if_false]
        cases hlk : lookupId crate.index itemId with
        | none => rfl
        | some it =>
          dsimp only
          cases hit : it.inner with
          | useItem src nm tgt g =>
            cases tgt with
            | none => rfl
            | some importedId =>
              exact ih f2 importedId (depth + 1) (itemId :: visited)
                (by omega) (by omega)
          | _ => rfl

theorem lookupId_eq_some_of_mem_of_nodup {α : Type} (l : List (Nat × α))
    (id : Nat) (a : α) (hmem : (id, a) ∈ l)
    (hnd : (l.map (·.1)).Nodup) : lookupId l id = some a := by
  induction l with
  | nil => cases hmem
  | cons hd tl ih =>
    obtain ⟨k, v⟩ := hd
    simp only [List.map_cons, List.nodup_cons] at hnd
    rcases List.mem_cons.mp hmem with h | h
    · obtain ⟨h1, h2⟩ := Prod.mk.injEq .. ▸ h
      cases h
      simp [lookupId]
    · have hne : k ≠ id := by
        intro he
        exact hnd.1 (he ▸ (List.mem_map.mpr ⟨(id, a), h, rfl⟩))
      simp only [lookupId, List.find?]
      rw [show ((k == id) = false) from by simpa using hne]
      exact ih h hnd.2

theorem mem_bucketKeys_assignPass (crate : Crate)
    (itemPaths : List (Nat × List String)) (includePrivate : Bool)
    (mid : Nat) (mit : Item) (msegs : List String)
    (hmem : (mid, mit) ∈ crate.index)
    (hpath : lookupId itemPaths mid = some msegs)
    (hlen : 2 ≤ msegs.length)
    (hroot : mid ≠ crate.root)
    (hvis : includePrivate = true ∨ isPublic mit = true)
    (hfmt : canFormatItem mit = true) :
    joinSep "::" msegs.dropLast
      ∈ bucketKeys (assignPass crate itemPaths includePrivate) := by
  unfold assignPass
  refine foldl_pred_of_elem
    (fun m => joinSep "::" msegs.dropLast ∈ bucketKeys m) _ crate.index
    (mid, mit) hmem ?_ ?_ []
  · intro m b hm
    dsimp only
    repeat' split
    all_goals first
      | exact hm
      | exact mem_bucketKeys_pushEntry_of_mem _ _ _ _ hm
  · intro m
    dsimp only
    rw [if_neg (by simpa using hroot)]
    have hvb : (!includePrivate && !isPublic mit) = false := by
      rcases hvis with h | h <;> simp [h]
    rw [hvb]
    simp only [Bool.false_eq_true, if_false]
    rw [hfmt]
    simp only [Bool.not_true, Bool.false_eq_true, if_false]
    rw [hpath]
    dsimp only
    rw [if_pos (show msegs.length > 1 by omega)]
    exact mem_bucketKeys_pushEntry _ _ _

/-- Soundness of the chain resolver: a successful result is an item of
the index that is never a re-export with a recorded target (the resolver
only stops advancing at `Use`-with-target items by recursing past them). -/
theorem resolveGo_sound (crate : Crate) :
    ∀ (fuel itemId depth : Nat) (visited : List Nat) (rid : Nat) (rit : Item),
      resolveGo crate fuel itemId depth visited = some (rid, rit) →
      (∀ src nm tid g, rit.inner ≠ ItemEnum.useItem src nm (some tid) g)
      ∧ lookupId crate.index rid = some rit := by
  intro fuel
  induction fuel with
  | zero =>
    intro itemId depth visited rid rit h
    rw [resolveGo] at h
    by_cases hd : depth > 10
    · simp [hd] at h
    · by_cases hv : itemId ∈ visited
      · simp [hd, hv] at h
      · have hc : visited.contains itemId = false := by simp [hv]
        simp only [hd, if_false, hc, Bool.false_eq_true] at h
        cases hlk : lookupId crate.index itemId with
        | none => rw [hlk] at h; cases h
        | some it =>
          rw [hlk] at h
          dsimp only at h
          cases hit : it.inner with
          | useItem src nm tgt g =>
            rw [hit] at h
            cases tgt with
            | none =>
              obtain ⟨h1, h2⟩ := Prod.mk.injEq .. ▸ Option.some.inj h
              subst h1; subst h2
              exact ⟨fun s n t g' => by simp [hit], hlk⟩
            | some importedId => cases h
          | module ms =>
            rw [hit] at h
            obtain ⟨h1, h2⟩ := Prod.mk.injEq .. ▸ Option.some.inj h
            subst h1; subst h2
            exact ⟨fun s n t g' => by simp [hit], hlk⟩
          | structItem =>
            rw [hit] at h
            obtain ⟨h1, h2⟩ := Prod.mk.injEq .. ▸ Option.some.inj h
            subst h1; subst h2
            exact ⟨fun s n t g' => by simp [hit], hlk⟩
          | enumItem =>
            rw [hit] at h
            obtain ⟨h1, h2⟩ := Prod.mk.injEq .. ▸ Option.some.inj h
            subst h1; subst h2
            exact ⟨fun s n t g' => by simp [hit], hlk⟩
          | functionItem =>
            rw [hit] at h
            obtain ⟨h1, h2⟩ := Prod.mk.injEq .. ▸ Option.some.inj h
            subst h1; subst h2
            exact ⟨fun s n t g' => by simp [hit], hlk⟩
          | traitItem =>
            rw [hit] at h
            obtain ⟨h1, h2⟩ := Prod.mk.injEq .. ▸ Option.some.inj h
            subst h1; subst h2
            exact ⟨fun s n t g' => by simp [hit], hlk⟩
          | constantItem =>
            rw [hit] at h
            obtain ⟨h1, h2⟩ := Prod.mk.injEq .. ▸ Option.some.inj h
            subst h1; subst h2
            exact ⟨fun s n t g' => by simp [hit], hlk⟩
          | typeAliasItem =>
            rw [hit] at h
            obtain ⟨h1, h2⟩ := Prod.mk.injEq .. ▸ Option.some.inj h
            subst h1; subst h2
            exact ⟨fun s n t g' => by simp [hit], hlk⟩
          | structFieldItem =>
            rw [hit] at h
            obtain ⟨h1, h2⟩ := Prod.mk.injEq .. ▸ Option.some.inj h
            subst h1; subst h2
            exact ⟨fun s n t g' => by simp [hit], hlk⟩
          | variantItem =>
            rw [hit] at h
            obtain ⟨h1, h2⟩ := Prod.mk.injEq .. ▸ Option.some.inj h
            subst h1; subst h2
            exact ⟨fun s n t g' => by simp [hit], hlk⟩
          | mcrItem =>
            rw [hit] at h
            obtain ⟨h1, h2⟩ := Prod.mk.injEq .. ▸ Option.some.inj h
            subst h1; subst h2
            exact ⟨fun s n t g' => by simp [hit], hlk⟩
          | procMcrItem =>
            rw [hit] at h
            obtain ⟨h1, h2⟩ := Prod.mk.injEq .. ▸ Option.some.inj h
            subst h1; subst h2
            exact ⟨fun s n t g' => by simp [hit], hlk⟩
          | staticItem =>
            rw [hit] at h
            obtain ⟨h1, h2⟩ := Prod.mk.injEq .. ▸ Option.some.inj h
            subst h1; subst h2
            exact ⟨fun s n t g' => by simp [hit], hlk⟩
          | otherItem =>
            rw [hit] at h
            obtain ⟨h1, h2⟩ := Prod.mk.injEq .. ▸ Option.some.inj h
            subst h1; subst h2
            exact ⟨fun s n t g' => by simp [hit], hlk⟩
  | succ f ih =>
    intro itemId depth visited rid rit h
    rw [resolveGo] at h
    by_cases hd : depth > 10
    · simp [hd] at h
    · by_cases hv : itemId ∈ visited
      · simp [hd, hv] at h
      · have hc : visited.contains itemId = false := by simp [hv]
        simp only [hd, if_false, hc, Bool.false_eq_true] at h
        cases hlk : lookupId crate.index itemId with
        | none => rw [hlk] at h; cases h
        | some it =>
          rw [hlk] at h
          dsimp only at h
          cases hit : it.inner with
          | useItem src nm tgt g =>
            rw [hit] at h
            cases tgt with
            | none =>
              obtain ⟨h1, h2⟩ := Prod.mk.injEq .. ▸ Option.some.inj h
              subst h1; subst h2
              exact ⟨fun s n t g' => by simp [hit], hlk⟩
            | some importedId => exact ih importedId (depth + 1) (itemId :: visited) rid rit h
          | module ms =>
            rw [hit] at h
            obtain ⟨h1, h2⟩ := Prod.mk.injEq .. ▸ Option.some.inj h
            subst h1; subst h2
            exact ⟨fun s n t g' => by simp [hit], hlk⟩
          | structItem =>
            rw [hit] at h
            obtain ⟨h1, h2⟩ := Prod.mk.injEq .. ▸ Option.some.inj h
            subst h1; subst h2
            exact ⟨fun s n t g' => by simp [hit], hlk⟩
          | enumItem =>
            rw [hit] at h
            obtain ⟨h1, h2⟩ := Prod.mk.injEq .. ▸ Option.some.inj h
            subst h1; subst h2
            exact ⟨fun s n t g' => by simp [hit], hlk⟩
          | functionItem =>
            rw [hit] at h
            obtain ⟨h1, h2⟩ := Prod.mk.injEq .. ▸ Option.some.inj h
            subst h1; subst h2
            exact ⟨fun s n t g' => by simp [hit], hlk⟩
          | traitItem =>
            rw [hit] at h
            obtain ⟨h1, h2⟩ := Prod.mk.injEq .. ▸ Option.some.inj h
            subst h1; subst h2
            exact ⟨fun s n t g' => by simp [hit], hlk⟩
          | constantItem =>
            rw [hit] at h
            obtain ⟨h1, h2⟩ := Prod.mk.injEq .. ▸ Option.some.inj h
            subst h1; subst h2
            exact ⟨fun s n t g' => by simp [hit], hlk⟩
          | typeAliasItem =>
            rw [hit] at h
            obtain ⟨h1, h2⟩ := Prod.mk.injEq .. ▸ Option.some.inj h
            subst h1; subst h2
            exact ⟨fun s n t g' => by simp [hit], hlk⟩
          | structFieldItem =>
            rw [hit] at h
            obtain ⟨h1, h2⟩ := Prod.mk.injEq .. ▸ Option.some.inj h
            subst h1; subst h2
            exact ⟨fun s n t g' => by simp [hit], hlk⟩
          | variantItem =>
            rw [hit] at h
            obtain ⟨h1, h2⟩ := Prod.mk.injEq .. ▸ Option.some.inj h
            subst h1; subst h2
            exact ⟨fun s n t g' => by simp [hit], hlk⟩
          | mcrItem =>
            rw [hit] at h
            obtain ⟨h1, h2⟩ := Prod.mk.injEq .. ▸ Option.some.inj h
            subst h1; subst h2
            exact ⟨fun s n t g' => by simp [hit], hlk⟩
          | procMcrItem =>
            rw [hit] at h
            obtain ⟨h1, h2⟩ := Prod.mk.injEq .. ▸ Option.some.inj h
            subst h1; subst h2
            exact ⟨fun s n t g' => by simp [hit], hlk⟩
          | staticItem =>
            rw [hit] at h
            obtain ⟨h1, h2⟩ := Prod.mk.injEq .. ▸ Option.some.inj h
            subst h1; subst h2
            exact ⟨fun s n t g' => by simp [hit], hlk⟩
          | otherItem =>
            rw [hit] at h
            obtain ⟨h1, h2⟩ := Prod.mk.injEq .. ▸ Option.some.inj h
            subst h1; subst h2
            exact ⟨fun s n t g' => by simp [hit], hlk⟩

/-- C1 (counterexample): in `deepPrivCrate` the bucket key `demo::a::b`
is present after assignment, but neither proper ancestor `demo::a` nor
`demo` has a bucket entry — no empty entries are inserted for absent
ancestors, so the bucket map is not ancestor-closed. -/
theorem c1_counterexample :
    "demo::a::b"
        ∈ bucketKeys (groupByModule deepPrivCrate (buildPathMap deepPrivCrate) false)
    ∧ "demo::a"
        ∉ bucketKeys (groupByModule deepPrivCrate (buildPathMap deepPrivCrate) false)
    ∧ "demo"
        ∉ bucketKeys (groupByModule deepPrivCrate (buildPathMap deepPrivCrate) false) := by
  decide

/-- C1 (amended): for every module bucket key `K` present after
assignment and every proper ancestor of `K`, if the module item one step
below that ancestor on the path toward `K` is indexed, path-mapped, not
the root, and passes the visibility policy, then the ancestor has a
bucket entry (it holds at least that child module item); the assigner
never synthesizes empty entries for ancestors that lack such a child. -/
theorem c1_ancestor_closed_for_included_modules
    (crate : Crate) (itemPaths : List (Nat × List String)) (includePrivate : Bool)
    (K : String)
    (_hK : K ∈ bucketKeys (groupByModule crate itemPaths includePrivate))
    (mid : Nat) (mit : Item) (msegs : List String) (ms : List Nat)
    (hmem : (mid, mit) ∈ crate.index)
    (hmod : mit.inner = ItemEnum.module ms)
    (hpath : lookupId itemPaths mid = some msegs)
    (hlen : 2 ≤ msegs.length)
    (_hanc : joinSep "::" msegs = K
            ∨ strStartsWith K (joinSep "::" msegs ++ "::") = true)
    (hroot : mid ≠ crate.root)
    (hvis : includePrivate = true ∨ isPublic mit = true) :
    joinSep "::" msegs.dropLast
      ∈ bucketKeys (groupByModule crate itemPaths includePrivate) := by
  have hfmt : canFormatItem mit = true := by simp [canFormatItem, hmod]
  have h1 := mem_bucketKeys_assignPass crate itemPaths includePrivate mid mit
    msegs hmem hpath hlen hroot hvis hfmt
  have h2 := pred_globPass
    (P := fun m => joinSep "::" msegs.dropLast ∈ bucketKeys m)
    (pushStable_mem_bucketKeys _) crate itemPaths includePrivate _ h1
  unfold groupByModule
  rw [bucketKeys_sortDedupBuckets]
  exact h2

/-- Witness for C1 (amended) on the all-public deep crate: `demo::a` has
a bucket entry because module `b` (path `demo::a::b`, toward the key
`demo::a::b`) is public and indexed. -/
theorem c1_witness :
    "demo::a"
      ∈ bucketKeys (groupByModule deepPubCrate (buildPathMap deepPubCrate) false) := by
  have h := c1_ancestor_closed_for_included_modules deepPubCrate
    (buildPathMap deepPubCrate) false "demo::a::b" (by decide)
    2 itemModBPub ["demo", "a", "b"] [3] (by decide) (by decide) (by decide)
    (by decide) (Or.inl (by decide)) (by decide) (Or.inr (by decide))
  simpa using h

/-- C2: the Re-export Resolver is a total function (the embedding is a
terminating Lean function for every finite, possibly cyclic re-export
graph); a call beyond the depth bound of 10 yields "unresolved", so does
a start id already in the visited set, and every call returns either
"unresolved" or a resolved item. -/
theorem c2_resolver_total (crate : Crate) (itemId depth : Nat)
    (visited : List Nat) :
    (depth > 10 → resolveReexportChain crate itemId depth visited = none)
    ∧ (itemId ∈ visited → resolveReexportChain crate itemId depth visited = none)
    ∧ (resolveReexportChain crate itemId depth visited = none
       ∨ ∃ r, resolveReexportChain crate itemId depth visited = some r) := by
  refine ⟨?_, ?_, ?_⟩
  · intro h
    unfold resolveReexportChain
    rw [resolveGo]
    simp [h]
  · intro h
    unfold resolveReexportChain
    rw [resolveGo]
    by_cases hd : depth > 10
    · simp [hd]
    · simp [hd, h]
  · cases hr : resolveReexportChain crate itemId depth visited with
    | none => exact Or.inl rfl
    | some r => exact Or.inr ⟨r, rfl⟩

/-- Witness for C2: the depth guard at depth 11, the visited guard with
the start id already visited, and totality of the result on the cyclic
two-re-export crate. -/
theorem c2_witness :
    resolveReexportChain cycleCrate 0 11 [] = none
    ∧ resolveReexportChain cycleCrate 0 0 [0] = none
    ∧ (resolveReexportChain cycleCrate 0 0 [] = none
       ∨ ∃ r, resolveReexportChain cycleCrate 0 0 [] = some r) :=
  ⟨(c2_resolver_total cycleCrate 0 11 []).1 (by omega),
   (c2_resolver_total cycleCrate 0 0 [0]).2.1 (by decide),
   (c2_resolver_total cycleCrate 0 0 []).2.2⟩

/-- C3 (counterexample): on a crate whose item 0 is a re-export with no
recorded target, the resolver returns that re-export itself — a
successful result that *is* a re-export, refuting "only a non-re-export
item is ever returned on success". -/
theorem c3_counterexample :
    resolveReexportChain useNoTargetCrate 0 0 [] = some (0, itemUseNoTarget)
    ∧ (∃ src nm g, itemUseNoTarget.inner = ItemEnum.useItem src nm none g) := by
  refine ⟨by decide, "x", "x", false, rfl⟩

/-- C3 (amended): whenever the Re-export Resolver returns a result, the
returned item is an item of the index that is not a re-export *with a
recorded target* — the chain is followed past every such re-export; a
re-export whose target id is unrecorded can itself be returned. -/
theorem c3_success_not_reexport_with_target (crate : Crate)
    (itemId depth : Nat) (visited : List Nat) (rid : Nat) (rit : Item)
    (h : resolveReexportChain crate itemId depth visited = some (rid, rit)) :
    (∀ src nm tid g, rit.inner ≠ ItemEnum.useItem src nm (some tid) g)
    ∧ lookupId crate.index rid = some rit := by
  unfold resolveReexportChain at h
  exact resolveGo_sound crate (11 - depth) itemId depth visited rid rit h

/-- Witness for C3 (amended): resolving the chained re-export 4 of
`chainGlobCrate` succeeds with module `m`, which is not a re-export. -/
theorem c3_witness :
    (∀ src nm tid g, itemModM.inner ≠ ItemEnum.useItem src nm (some tid) g)
    ∧ lookupId chainGlobCrate.index 1 = some itemModM :=
  c3_success_not_reexport_with_target chainGlobCrate 4 0 [] 1 itemModM (by decide)

/-- C4: the Link Resolver is deterministic in the per-run configuration:
for a fixed (path, item id, crate, initiating item, depth) input, any two
run contexts that agree on the base routing prefix and the
sibling-project set produce the identical optional destination — in
particular the remaining thread-local cell (the sidebar root link) never
influences the result. -/
theorem c4_link_resolver_deterministic (fullPath : String) (itemId : Nat)
    (crate : Crate) (currentItem : Option Item) (depth : Nat)
    (ctx1 ctx2 : ConvCtx) (hbp : ctx1.basePath = ctx2.basePath)
    (hwc : ctx1.workspaceCrates = ctx2.workspaceCrates) :
    generateTypeLinkCtx fullPath itemId crate currentItem depth ctx1
      = generateTypeLinkCtx fullPath itemId crate currentItem depth ctx2 := by
  unfold generateTypeLinkCtx
  rw [hbp, hwc]

/-- Witness for C4: two contexts differing only in the sidebar root link
resolve the external reference identically. -/
theorem c4_witness :
    generateTypeLinkCtx "foo_bar::X" 7 externalXCrate none 0 ctxNoBack
      = generateTypeLinkCtx "foo_bar::X" 7 externalXCrate none 0 ctxWithBack :=
  c4_link_resolver_deterministic "foo_bar::X" 7 externalXCrate none 0
    ctxNoBack ctxWithBack rfl rfl

/-- C5 (counterexample): a crate whose index lacks the root id makes the
conversion return an error to the caller instead of producing a partial
output. -/
theorem c5_counterexample :
    convertToMarkdownMultifile emptyIndexCrate false "" [] false none
      = Except.error "Root item not found in index" := by
  rfl

/-- C5 (amended): a missing root item is *not* degraded gracefully: for
every input crate whose index lacks an entry for the root id, the
conversion returns the error "Root item not found in index" to the
caller (other input defects — missing path entries, dangling references
— are skipped instead). -/
theorem c5_missing_root_is_error (crate : Crate) (includePrivate : Bool)
    (basePath : String) (workspaceCrates : List String) (collapsed : Bool)
    (sidebarRootLink : Option String)
    (h : lookupId crate.index crate.root = none) :
    convertToMarkdownMultifile crate includePrivate basePath workspaceCrates
      collapsed sidebarRootLink = Except.error "Root item not found in index" := by
  unfold convertToMarkdownMultifile
  rw [h]

/-- Witness for C5 (amended) on the empty-index crate. -/
theorem c5_witness :
    convertToMarkdownMultifile emptyIndexCrate true "/docs" ["w"] true (some "u")
      = Except.error "Root item not found in index" :=
  c5_missing_root_is_error emptyIndexCrate true "/docs" ["w"] true (some "u")
    (by decide)

theorem lookupStr_pushEntry_eq (m : Buckets) (k : String) (pr : Nat × Item) :
    lookupStr (pushEntry m k pr) k = some ((lookupStr m k).getD [] ++ [pr]) := by
  induction m with
  | nil => simp [pushEntry, lookupStr]
  | cons hd tl ih =>
    obtain ⟨a, l⟩ := hd
    by_cases hak : a = k
    · subst hak
      simp [pushEntry, lookupStr]
    · simp only [pushEntry]
      rw [if_neg (by simpa using hak)]
      simp only [lookupStr, List.find?]
      rw [show ((a == k) = false) from by simpa using hak]
      exact ih

theorem lookupStr_pushEntry_ne (m : Buckets) (k k' : String) (pr : Nat × Item)
    (h : k' ≠ k) :
    lookupStr (pushEntry m k pr) k' = lookupStr m k' := by
  induction m with
  | nil =>
    simp only [pushEntry, lookupStr, List.find?]
    rw [show ((k == k') = false) from by simpa using fun he => h he.symm]
  | cons hd tl ih =>
    obtain ⟨a, l⟩ := hd
    by_cases hak : a = k
    · subst hak
      simp only [pushEntry]
      rw [if_pos (by simp)]
      simp only [lookupStr, List.find?]
      rw [show ((a == k') = false) from by simpa using fun he => h he.symm]
    · simp only [pushEntry]
      rw [if_neg (by simpa using hak)]
      by_cases hak' : a = k'
      · subst hak'
        simp [lookupStr]
      · simp only [lookupStr, List.find?]
        rw [show ((a == k') = false) from by simpa using hak']
        exact ih

theorem mem_of_lookupStr (m : Buckets) (k : String) (l : List (Nat × Item))
    (h : lookupStr m k = some l) : (k, l) ∈ m := by
  induction m with
  | nil => simp [lookupStr] at h
  | cons hd tl ih =>
    obtain ⟨a, v⟩ := hd
    by_cases hak : a = k
    · subst hak
      simp [lookupStr] at h
      simp [h]
    · simp only [lookupStr, List.find?] at h
      rw [show ((a == k) = false) from by simpa using hak] at h
      exact List.mem_cons_of_mem _ (ih h)

theorem memVal_pushEntry_self (m : Buckets) (K : String) (q : Nat × Item) :
    MemVal K q (pushEntry m K q) := by
  refine ⟨(lookupStr m K).getD [] ++ [q], lookupStr_pushEntry_eq m K q, ?_⟩
  simp

theorem pushStable_memVal (K : String) (q : Nat × Item) :
    PushStable (MemVal K q) := by
  intro m k pr h
  obtain ⟨l, hl, hq⟩ := h
  by_cases hk : K = k
  · subst hk
    refine ⟨(lookupStr m K).getD [] ++ [pr], lookupStr_pushEntry_eq m K pr, ?_⟩
    rw [hl]
    simpa using Or.inl hq
  · exact ⟨l, (lookupStr_pushEntry_ne m k K pr hk).trans hl, hq⟩

theorem mem_insBy {α : Type} (le : α → α → Bool) (a x : α) :
    ∀ l : List α, x ∈ insBy le a l ↔ x = a ∨ x ∈ l := by
  intro l
  induction l with
  | nil => simp [insBy]
  | cons b tl ih =>
    simp only [insBy]
    by_cases hc : le b a = true
    · rw [if_pos hc]
      simp only [List.mem_cons, ih]
      tauto
    · rw [if_neg hc]
      simp only [List.mem_cons]

theorem mem_foldl_insBy {α : Type} (le : α → α → Bool) (x : α) :
    ∀ (l acc : List α),
      (x ∈ l.foldl (fun acc a => insBy le a acc) acc ↔ x ∈ acc ∨ x ∈ l) := by
  intro l
  induction l with
  | nil => simp
  | cons b tl ih =>
    intro acc
    simp only [List.foldl_cons]
    rw [ih (insBy le b acc), mem_insBy]
    simp only [List.mem_cons]
    tauto

theorem mem_insertionSortBy {α : Type} (le : α → α → Bool) (x : α) (l : List α) :
    x ∈ insertionSortBy le l ↔ x ∈ l := by
  unfold insertionSortBy
  rw [mem_foldl_insBy]
  simp

theorem pairwise_insBy {α : Type} (le : α → α → Bool)
    (htot : ∀ a b, le a b = true ∨ le b a = true)
    (htr : ∀ a b c, le a b = true → le b c = true → le a c = true)
    (a : α) :
    ∀ l : List α, l.Pairwise (fun x y => le x y = true) →
      (insBy le a l).Pairwise (fun x y => le x y = true) := by
  intro l
  induction l with
  | nil => intro _; simp [insBy]
  | cons b tl ih =>
    intro h
    rw [List.pairwise_cons] at h
    obtain ⟨hb, htl⟩ := h
    simp only [insBy]
    by_cases hc : le b a = true
    · rw [if_pos hc]
      rw [List.pairwise_cons]
      refine ⟨?_, ih htl⟩
      intro x hx
      rcases (mem_insBy le a x tl).mp hx with hxa | hxtl
      · subst hxa; exact hc
      · exact hb x hxtl
    · rw [if_neg hc]
      have hab : le a b = true := by
        rcases htot a b with h | h
        · exact h
        · exact absurd h hc
      rw [List.pairwise_cons]
      refine ⟨?_, List.pairwise_cons.mpr ⟨hb, htl⟩⟩
      intro x hx
      rcases List.mem_cons.mp hx with hxb | hxtl
      · subst hxb; exact hab
      · exact htr a b x hab (hb x hxtl)

theorem pairwise_foldl_insBy {α : Type} (le : α → α → Bool)
    (htot : ∀ a b, le a b = true ∨ le b a = true)
    (htr : ∀ a b c, le a b = true → le b c = true → le a c = true) :
    ∀ (l acc : List α), acc.Pairwise (fun x y => le x y = true) →
      (l.foldl (fun acc a => insBy le a acc) acc).Pairwise
        (fun x y => le x y = true) := by
  intro l
  induction l with
  | nil => intro acc h; simpa using h
  | cons b tl ih =>
    intro acc h
    simp only [List.foldl_cons]
    exact ih (insBy le b acc) (pairwise_insBy le htot htr b acc h)

theorem pairwise_insertionSortBy {α : Type} (le : α → α → Bool)
    (htot : ∀ a b, le a b = true ∨ le b a = true)
    (htr : ∀ a b c, le a b = true → le b c = true → le a c = true)
    (l : List α) :
    (insertionSortBy le l).Pairwise (fun x y => le x y = true) := by
  unfold insertionSortBy
  exact pairwise_foldl_insBy le htot htr l [] (by simp)

theorem dedupAdjGo_sublist : ∀ (l : List (Nat × Item)) (prev : Nat),
    (dedupAdjGo prev l).Sublist l := by
  intro l
  induction l with
  | nil => intro prev; simp [dedupAdjGo]
  | cons b tl ih =>
    intro prev
    simp only [dedupAdjGo]
    by_cases hb : (b.1 == prev) = true
    · rw [if_pos hb]
      exact (ih prev).cons b
    · rw [if_neg hb]
      exact (ih b.1).cons₂ b

theorem dedupAdjByIds_sublist (l : List (Nat × Item)) :
    (dedupAdjByIds l).Sublist l := by
  cases l with
  | nil => simp [dedupAdjByIds]
  | cons a tl =>
    simp only [dedupAdjByIds]
    exact (dedupAdjGo_sublist tl a.1).cons₂ a

theorem mem_fst_dedupAdjGo (i : Nat) : ∀ (l : List (Nat × Item)) (prev : Nat),
    i ∈ l.map (·.1) → i = prev ∨ i ∈ (dedupAdjGo prev l).map (·.1) := by
  intro l
  induction l with
  | nil => intro prev h; simp at h
  | cons b tl ih =>
    intro prev h
    simp only [List.map_cons, List.mem_cons] at h
    simp only [dedupAdjGo]
    by_cases hb : (b.1 == prev) = true
    · rw [if_pos hb]
      have hbp : b.1 = prev := by simpa using hb
      rcases h with h | h
      · exact Or.inl (h.trans hbp)
      · exact ih prev h
    · rw [if_neg hb]
      rcases h with h | h
      · subst h; simp
      · rcases ih b.1 h with h2 | h2
        · subst h2; simp
        · simp only [List.map_cons, List.mem_cons]
          exact Or.inr (Or.inr h2)

theorem mem_fst_dedupAdjByIds (i : Nat) (l : List (Nat × Item))
    (h : i ∈ l.map (·.1)) : i ∈ (dedupAdjByIds l).map (·.1) := by
  cases l with
  | nil => simp at h
  | cons a tl =>
    simp only [List.map_cons, List.mem_cons] at h
    simp only [dedupAdjByIds, List.map_cons, List.mem_cons]
    rcases h with h | h
    · exact Or.inl h
    · rcases mem_fst_dedupAdjGo i tl a.1 h with h2 | h2
      · exact Or.inl h2
      · exact Or.inr h2

theorem chain'_dedupAdjGo : ∀ (l : List (Nat × Item)) (prev : Nat),
    ((dedupAdjGo prev l).Chain' (fun a b => a.1 ≠ b.1))
    ∧ (∀ q, (dedupAdjGo prev l).head? = some q → q.1 ≠ prev) := by
  intro l
  induction l with
  | nil => intro prev; constructor <;> simp [dedupAdjGo]
  | cons b tl ih =>
    intro prev
    simp only [dedupAdjGo]
    by_cases hb : (b.1 == prev) = true
    · rw [if_pos hb]
      exact ih prev
    · rw [if_neg hb]
      refine ⟨?_, ?_⟩
      · rw [List.chain'_cons']
        refine ⟨?_, (ih b.1).1⟩
        intro y hy
        exact fun he => (ih b.1).2 y hy he.symm
      · intro q hq
        simp only [List.head?_cons, Option.some.injEq] at hq
        subst hq
        simpa using hb

theorem chain'_dedupAdjByIds (l : List (Nat × Item)) :
    (dedupAdjByIds l).Chain' (fun a b => a.1 ≠ b.1) := by
  cases l with
  | nil => simp [dedupAdjByIds]
  | cons a tl =>
    simp only [dedupAdjByIds]
    rw [List.chain'_cons']
    refine ⟨?_, (chain'_dedupAdjGo tl a.1).1⟩
    intro y hy
    exact fun he => (chain'_dedupAdjGo tl a.1).2 y hy he.symm

theorem listLexLe_total : ∀ s t : List Char,
    listLexLe s t = true ∨ listLexLe t s = true := by
  intro s
  induction s with
  | nil => intro t; left; rfl
  | cons a s' ih =>
    intro t
    cases t with
    | nil => right; rfl
    | cons b t' =>
      simp only [listLexLe]
      by_cases hab : a.toNat = b.toNat
      · rw [if_pos (by simpa using hab), if_pos (by simpa using hab.symm)]
        exact ih t'
      · rw [if_neg (by simpa using hab), if_neg (by simpa using fun he => hab he.symm)]
        rcases Nat.lt_or_ge a.toNat b.toNat with h | h
        · left; simpa using h
        · right; simp; omega

theorem listLexLe_trans : ∀ s t u : List Char,
    listLexLe s t = true → listLexLe t u = true → listLexLe s u = true := by
  intro s
  induction s with
  | nil => intro t u _ _; rfl
  | cons a s' ih =>
    intro t u h1 h2
    cases t with
    | nil => simp [listLexLe] at h1
    | cons b t' =>
      cases u with
      | nil => simp [listLexLe] at h2
      | cons c u' =>
        simp only [listLexLe] at h1 h2 ⊢
        by_cases hab : a.toNat = b.toNat
        · rw [if_pos (by simpa using hab)] at h1
          by_cases hbc : b.toNat = c.toNat
          · rw [if_pos (by simpa using hbc)] at h2
            rw [if_pos (by simpa using hab.trans hbc)]
            exact ih t' u' h1 h2
          · rw [if_neg (by simpa using hbc)] at h2
            have hlt : b.toNat < c.toNat := by simpa using h2
            rw [if_neg (by simp; omega)]
            simp; omega
        · rw [if_neg (by simpa using hab)] at h1
          have hlt1 : a.toNat < b.toNat := by simpa using h1
          by_cases hbc : b.toNat = c.toNat
          · rw [if_neg (by simp; omega)]
            simp; omega
          · rw [if_neg (by simpa using hbc)] at h2
            have hlt2 : b.toNat < c.toNat := by simpa using h2
            rw [if_neg (by simp; omega)]
            simp; omega

theorem nameLe_total (a b : Nat × Item) : nameLe a b = true ∨ nameLe b a = true :=
  listLexLe_total (nameOf a).data (nameOf b).data

theorem nameLe_trans (a b c : Nat × Item) (h1 : nameLe a b = true)
    (h2 : nameLe b c = true) : nameLe a c = true :=
  listLexLe_trans (nameOf a).data (nameOf b).data (nameOf c).data h1 h2

theorem goodPairs_nil (crate : Crate) : GoodPairs crate [] := by
  intro kl hkl
  cases hkl

theorem goodPairs_pushEntry (crate : Crate) (m : Buckets) (k : String)
    (pr : Nat × Item) (hm : GoodPairs crate m)
    (hpr : lookupId crate.index pr.1 = some pr.2) :
    GoodPairs crate (pushEntry m k pr) := by
  induction m with
  | nil =>
    intro kl hkl p hp
    simp only [pushEntry, List.mem_singleton] at hkl
    subst hkl
    simp only [List.mem_singleton] at hp
    subst hp
    exact hpr
  | cons hd tl ih =>
    obtain ⟨a, l⟩ := hd
    simp only [pushEntry]
    by_cases hak : a = k
    · rw [if_pos (by simpa using hak)]
      intro kl hkl p hp
      rcases List.mem_cons.mp hkl with h | h
      · subst h
        simp only [List.mem_append, List.mem_singleton] at hp
        rcases hp with hp | hp
        · exact hm (a, l) (List.mem_cons_self _ _) p hp
        · subst hp; exact hpr
      · exact hm kl (List.mem_cons_of_mem _ h) p hp
    · rw [if_neg (by simpa using hak)]
      intro kl hkl p hp
      rcases List.mem_cons.mp hkl with h | h
      · subst h
        exact hm (a, l) (List.mem_cons_self _ _) p hp
      · exact ih (fun kl2 hkl2 => hm kl2 (List.mem_cons_of_mem _ hkl2)) kl h p hp

theorem goodPairs_globCopyMembers (crate : Crate) (includePrivate : Bool)
    (modulePath : String) (importedMembers : List Nat) (m : Buckets)
    (hm : GoodPairs crate m) :
    GoodPairs crate
      (globCopyMembers crate includePrivate modulePath importedMembers m) := by
  unfold globCopyMembers
  refine foldl_pred_mono (GoodPairs crate) _ importedMembers ?_ m hm
  intro m' b hm'
  cases hlk : lookupId crate.index b with
  | none => simpa [hlk] using hm'
  | some impItem =>
    simp only [hlk]
    split
    · exact hm'
    · split
      · exact hm'
      · split
        · exact hm'
        · exact hm'
        · exact goodPairs_pushEntry crate m' modulePath (b, impItem) hm' hlk

theorem goodPairs_processUseMember (crate : Crate)
    (itemPaths : List (Nat × List String)) (includePrivate : Bool)
    (moduleId : Nat) (modulePath : String) (m : Buckets) (itemId : Nat)
    (it : Item) (target : Option Nat) (isGlob : Bool)
    (hm : GoodPairs crate m)
    (hit : lookupId crate.index itemId = some it) :
    GoodPairs crate
      (processUseMember crate itemPaths includePrivate moduleId modulePath
        m itemId it target isGlob) := by
  have h1 : GoodPairs crate (pushEntry m modulePath (itemId, it)) :=
    goodPairs_pushEntry crate m modulePath (itemId, it) hm hit
  unfold processUseMember
  dsimp only
  repeat' split
  all_goals first
    | exact hm
    | exact h1
    | exact goodPairs_globCopyMembers crate includePrivate modulePath _ _ h1

theorem goodPairs_globPass (crate : Crate)
    (itemPaths : List (Nat × List String)) (includePrivate : Bool)
    (m0 : Buckets) (hm : GoodPairs crate m0) :
    GoodPairs crate (globPass crate itemPaths includePrivate m0) := by
  unfold globPass
  refine foldl_pred_mono (GoodPairs crate) _ crate.index ?_ m0 hm
  intro m b hm'
  split
  · rename_i memberIds _
    cases hlk : lookupId itemPaths b.1 with
    | none => simpa [hlk] using hm'
    | some path =>
      simp only [hlk]
      refine foldl_pred_mono (GoodPairs crate) _ memberIds ?_ m hm'
      intro m' i hm''
      cases hli : lookupId crate.index i with
      | none => simpa [hli] using hm''
      | some it =>
        simp only [hli]
        split
        · exact goodPairs_processUseMember crate itemPaths includePrivate _ _
            m' i it _ _ hm'' hli
        · exact hm''
  · exact hm'

theorem goodPairs_assignPass (crate : Crate)
    (itemPaths : List (Nat × List String)) (includePrivate : Bool)
    (hnd : (crate.index.map (·.1)).Nodup) :
    GoodPairs crate (assignPass crate itemPaths includePrivate) := by
  unfold assignPass
  have step : ∀ (l : List (Nat × Item)), (∀ b ∈ l, b ∈ crate.index) →
      ∀ m, GoodPairs crate m →
        GoodPairs crate (l.foldl (fun m p =>
          if p.1 == crate.root then m
          else if !includePrivate && !isPublic p.2 then m
          else if !canFormatItem p.2 then m
          else
            match lookupId itemPaths p.1 with
            | some path =>
              if path.length > 1 then
                pushEntry m (joinSep "::" path.dropLast) (p.1, p.2)
              else if path.length == 1 then
                pushEntry m (joinSep "::" path) (p.1, p.2)
              else m
            | none => m) m) := by
    intro l
    induction l with
    | nil => intro _ m hm; simpa using hm
    | cons b rest ih =>
      intro hsub m hm
      simp only [List.foldl_cons]
      refine ih (fun x hx => hsub x (List.mem_cons_of_mem _ hx)) _ ?_
      have hb : b ∈ crate.index := hsub b (List.mem_cons_self _ _)
      have hlkb : lookupId crate.index b.1 = some b.2 :=
        lookupId_eq_some_of_mem_of_nodup crate.index b.1 b.2 hb hnd
      repeat' split
      all_goals first
        | exact hm
        | exact goodPairs_pushEntry crate m _ (b.1, b.2) hm hlkb
  exact step crate.index (fun b hb => hb) [] (goodPairs_nil crate)

theorem memVal_sortDedup (crate : Crate) (M : Buckets) (K : String)
    (q : Nat × Item) (hmv : MemVal K q M) (hgp : GoodPairs crate M)
    (hq : lookupId crate.index q.1 = some q.2) :
    ∃ l, lookupStr (sortDedupBuckets M) K = some l ∧ q ∈ l := by
  obtain ⟨l0, hl0, hql0⟩ := hmv
  refine ⟨dedupAdjByIds (insertionSortBy nameLe l0), ?_, ?_⟩
  · rw [lookupStr_sortDedupBuckets, hl0]; rfl
  · have h1 : q.1 ∈ (insertionSortBy nameLe l0).map (·.1) :=
      List.mem_map.mpr ⟨q, (mem_insertionSortBy nameLe q l0).mpr hql0, rfl⟩
    have h2 : q.1 ∈ (dedupAdjByIds (insertionSortBy nameLe l0)).map (·.1) :=
      mem_fst_dedupAdjByIds q.1 _ h1
    obtain ⟨p, hp, hpfst⟩ := List.mem_map.mp h2
    have hp1 : p ∈ insertionSortBy nameLe l0 :=
      (dedupAdjByIds_sublist _).subset hp
    have hp2 : p ∈ l0 := (mem_insertionSortBy nameLe p l0).mp hp1
    have hgood : lookupId crate.index p.1 = some p.2 :=
      hgp (K, l0) (mem_of_lookupStr M K l0 hl0) p hp2
    have hpq : p = q := by
      have hfst : p.1 = q.1 := hpfst
      rw [hfst] at hgood
      rw [hq] at hgood
      have h22 : p.2 = q.2 := (Option.some.inj hgood).symm
      exact Prod.ext hfst h22
    rw [← hpq]
    exact hp

theorem memVal_globCopyMembers_adds (crate : Crate) (includePrivate : Bool)
    (modulePath : String) (tMembers : List Nat) (i : Nat) (impItem : Item)
    (himem : i ∈ tMembers)
    (hilk : lookupId crate.index i = some impItem)
    (hivis : includePrivate = true ∨ isPublic impItem = true)
    (hifmt : canFormatItem impItem = true)
    (hikind : copyableKind impItem = true) :
    ∀ m, MemVal modulePath (i, impItem)
      (globCopyMembers crate includePrivate modulePath tMembers m) := by
  intro m
  unfold globCopyMembers
  refine foldl_pred_of_elem (MemVal modulePath (i, impItem)) _ tMembers i himem
    ?_ ?_ m
  · intro m' b hm'
    cases hlk : lookupId crate.index b with
    | none => simpa [hlk] using hm'
    | some it2 =>
      simp only [hlk]
      split
      · exact hm'
      · split
        · exact hm'
        · split
          · exact hm'
          · exact hm'
          · exact pushStable_memVal _ _ m' modulePath _ hm'
  · intro m'
    dsimp only
    simp only [hilk]
    have hvb : (!includePrivate && !isPublic impItem) = false := by
      rcases hivis with h | h <;> simp [h]
    rw [hvb]
    simp only [Bool.false_eq_true, if_false]
    rw [hifmt]
    simp only [Bool.not_true, Bool.false_eq_true, if_false]
    cases hi : impItem.inner <;>
      first
        | ((try rw [hi]); exact memVal_pushEntry_self _ _ _)
        | (exfalso; simp [copyableKind, hi] at hikind)

theorem memVal_processUseMember_adds (crate : Crate)
    (itemPaths : List (Nat × List String)) (includePrivate : Bool)
    (moduleId : Nat) (modulePath : String) (itemId : Nat) (it : Item)
    (importedId resolvedId : Nat) (tItem : Item) (tMembers : List Nat)
    (i : Nat) (impItem : Item)
    (huvis : includePrivate = true ∨ isPublic it = true)
    (hraw : importedId ≠ moduleId)
    (hres : resolveReexportChain crate importedId 0 [] = some (resolvedId, tItem))
    (htmod : tItem.inner = ItemEnum.module tMembers)
    (hanc : ∀ ip, lookupId itemPaths resolvedId = some ip →
      strStartsWith modulePath (joinSep "::" ip ++ "::") = false)
    (himem : i ∈ tMembers)
    (hilk : lookupId crate.index i = some impItem)
    (hivis : includePrivate = true ∨ isPublic impItem = true)
    (hifmt : canFormatItem impItem = true)
    (hikind : copyableKind impItem = true) :
    ∀ m, MemVal modulePath (i, impItem)
      (processUseMember crate itemPaths includePrivate moduleId modulePath
        m itemId it (some importedId) true) := by
  intro m
  unfold processUseMember
  have hvb : (!includePrivate && !isPublic it) = false := by
    rcases huvis with h | h <;> simp [h]
  rw [hvb]
  simp only [Bool.false_eq_true, if_false]
  try dsimp only
  rw [if_neg (show ¬((importedId == moduleId) = true) from by simpa using hraw)]
  rw [hres]
  try dsimp only
  rw [htmod]
  try dsimp only
  cases hlkp : lookupId itemPaths resolvedId with
  | none =>
    simp only [hlkp, Option.map_none']
    exact memVal_globCopyMembers_adds crate includePrivate modulePath tMembers
      i impItem himem hilk hivis hifmt hikind _
  | some ip =>
    simp only [hlkp, Option.map_some']
    rw [hanc ip hlkp]
    simp only [Bool.false_eq_true, if_false]
    exact memVal_globCopyMembers_adds crate includePrivate modulePath tMembers
      i impItem himem hilk hivis hifmt hikind _

theorem lookupStr_globCopyMembers_ne (crate : Crate) (includePrivate : Bool)
    (modulePath : String) (tMembers : List Nat) (k : String)
    (h : k ≠ modulePath) :
    ∀ m0, lookupStr (globCopyMembers crate includePrivate modulePath tMembers m0) k
      = lookupStr m0 k := by
  unfold globCopyMembers
  induction tMembers with
  | nil => intro m0; rfl
  | cons b rest ih =>
    intro m0
    simp only [List.foldl_cons]
    rw [ih]
    cases hlk : lookupId crate.index b with
    | none => rfl
    | some impItem =>
      dsimp only
      split
      · rfl
      · split
        · rfl
        · split
          · rfl
          · rfl
          · exact lookupStr_pushEntry_ne m0 modulePath k _ h

/-- C6 (counterexample): in `chainGlobCrate` the glob re-export 5 inside
module `m` (id 1) has raw target 4, which resolves through the chain to
module `m` itself; the assigner does *not* skip this edge — it re-copies
`m`'s own structs 2 and 3 into `m`'s bucket, which ends up holding ids
`[5, 2, 3, 2, 3]` instead of `[5, 2, 3]`. -/
theorem c6_counterexample :
    resolveReexportChain chainGlobCrate 4 0 [] = some (1, itemModM)
    ∧ (lookupId (buildPathMap chainGlobCrate) 1).map (joinSep "::")
        = some "demo::m"
    ∧ (lookupStr (groupByModule chainGlobCrate (buildPathMap chainGlobCrate)
          false) "demo::m").map (fun l => l.map (·.1))
        = some [5, 2, 3, 2, 3] :=
  ⟨by decide, by decide, by decide⟩

/-- C6 (amended): for every wildcard re-export inside a module `m` whose
*raw* target id differs from `m` and whose resolved target is a module
`t` that is not a path-ancestor of `m`, the Module Assigner copies every
visible, renderable, non-module, non-re-export member of `t` into `m`'s
bucket; and the copy step writes only `m`'s bucket, leaving every other
bucket (in particular `t`'s own) untouched.  (The self-skip applies to
the raw target only: a wildcard resolving to `m` through a chain is
processed like any other edge.) -/
theorem c6_wildcard_copy (crate : Crate)
    (itemPaths : List (Nat × List String)) (includePrivate : Bool)
    (hnd : (crate.index.map (·.1)).Nodup)
    (mId : Nat) (mItem : Item) (memberIds : List Nat) (mpathSegs : List String)
    (hmmem : (mId, mItem) ∈ crate.index)
    (hmmod : mItem.inner = ItemEnum.module memberIds)
    (hmpath : lookupId itemPaths mId = some mpathSegs)
    (useId : Nat) (useIt : Item) (src nm : String) (importedId : Nat)
    (huse : useId ∈ memberIds)
    (hulk : lookupId crate.index useId = some useIt)
    (huinner : useIt.inner = ItemEnum.useItem src nm (some importedId) true)
    (huvis : includePrivate = true ∨ isPublic useIt = true)
    (hraw : importedId ≠ mId)
    (resolvedId : Nat) (tItem : Item) (tMembers : List Nat)
    (hres : resolveReexportChain crate importedId 0 [] = some (resolvedId, tItem))
    (htmod : tItem.inner = ItemEnum.module tMembers)
    (hanc : ∀ ip, lookupId itemPaths resolvedId = some ip →
      strStartsWith (joinSep "::" mpathSegs) (joinSep "::" ip ++ "::") = false)
    (i : Nat) (impItem : Item)
    (himem : i ∈ tMembers)
    (hilk : lookupId crate.index i = some impItem)
    (hivis : includePrivate = true ∨ isPublic impItem = true)
    (hifmt : canFormatItem impItem = true)
    (hikind : copyableKind impItem = true) :
    (∃ l, lookupStr (groupByModule crate itemPaths includePrivate)
        (joinSep "::" mpathSegs) = some l ∧ (i, impItem) ∈ l)
    ∧ (∀ (m0 : Buckets) (k : String), k ≠ joinSep "::" mpathSegs →
        lookupStr (globCopyMembers crate includePrivate
          (joinSep "::" mpathSegs) tMembers m0) k = lookupStr m0 k) := by
  constructor
  · have hmv : MemVal (joinSep "::" mpathSegs) (i, impItem)
        (globPass crate itemPaths includePrivate
          (assignPass crate itemPaths includePrivate)) := by
      unfold globPass
      refine foldl_pred_of_elem (MemVal (joinSep "::" mpathSegs) (i, impItem)) _
        crate.index (mId, mItem) hmmem ?_ ?_ _
      · intro m b hm
        split
        · rename_i memberIds2 hbmod
          cases hlk : lookupId itemPaths b.1 with
          | none => simpa [hlk] using hm
          | some path =>
            simp only [hlk]
            refine foldl_pred_mono _ _ memberIds2 ?_ m hm
            intro m' i2 hm'
            cases hli : lookupId crate.index i2 with
            | none => simpa [hli] using hm'
            | some it2 =>
              simp only [hli]
              split
              · exact pred_processUseMember (pushStable_memVal _ _) crate
                  itemPaths includePrivate _ _ m' i2 it2 _ _ hm'
              · exact hm'
        · exact hm
      · intro m
        dsimp only
        rw [hmmod]
        dsimp only
        rw [hmpath]
        dsimp only
        refine foldl_pred_of_elem (MemVal (joinSep "::" mpathSegs) (i, impItem)) _
          memberIds useId huse ?_ ?_ m
        · intro m' i2 hm'
          cases hli : lookupId crate.index i2 with
          | none => simpa [hli] using hm'
          | some it2 =>
            simp only [hli]
            split
            · exact pred_processUseMember (pushStable_memVal _ _) crate
                itemPaths includePrivate _ _ m' i2 it2 _ _ hm'
            · exact hm'
        · intro m'
          dsimp only
          simp only [hulk]
          rw [huinner]
          dsimp only
          exact memVal_processUseMember_adds crate itemPaths includePrivate
            mId (joinSep "::" mpathSegs) useId useIt importedId resolvedId
            tItem tMembers i impItem huvis hraw hres htmod hanc himem hilk
            hivis hifmt hikind m'
    have hgp : GoodPairs crate
        (globPass crate itemPaths includePrivate
          (assignPass crate itemPaths includePrivate)) :=
      goodPairs_globPass crate itemPaths includePrivate _
        (goodPairs_assignPass crate itemPaths includePrivate hnd)
    unfold groupByModule
    exact memVal_sortDedup crate _ _ (i, impItem) hmv hgp hilk
  · intro m0 k hk
    exact lookupStr_globCopyMembers_ne crate includePrivate _ tMembers k hk m0

/-- Witness for C6 (amended) on the spec's wildcard scenario
(`pub use other::*` inside `m`, `other` holding public struct `S`):
`m`'s bucket gains the copy of `S`, the copy step leaves `other`'s bucket
unchanged, and in the full output `other`'s bucket still holds exactly
its own `S`. -/
theorem c6_witness :
    ((∃ l, lookupStr (groupByModule wildcardScenarioCrate
        (buildPathMap wildcardScenarioCrate) false)
        (joinSep "::" ["demo", "m"]) = some l ∧ (3, itemStructS) ∈ l)
    ∧ (∀ (m0 : Buckets) (k : String), k ≠ joinSep "::" ["demo", "m"] →
        lookupStr (globCopyMembers wildcardScenarioCrate false
          (joinSep "::" ["demo", "m"]) [3] m0) k = lookupStr m0 k))
    ∧ lookupStr (groupByModule wildcardScenarioCrate
        (buildPathMap wildcardScenarioCrate) false) "demo::other"
        = some [(3, itemStructS)] := by
  constructor
  · refine c6_wildcard_copy wildcardScenarioCrate
      (buildPathMap wildcardScenarioCrate) false (by decide)
      1 itemModMScenario [10] ["demo", "m"] (by decide) (by decide) (by decide)
      10 itemGlobOther "other" "" 2 (by decide) (by decide) (by decide)
      (Or.inr (by decide)) (by decide)
      2 itemModOther [3] (by decide) (by decide) ?_
      3 itemStructS (by decide) (by decide) (Or.inr (by decide)) (by decide)
      (by decide)
    intro ip hip
    have hl : lookupId (buildPathMap wildcardScenarioCrate) 2
        = some ["demo", "other"] := by decide
    rw [hl] at hip
    cases hip
    decide
  · decide

/-- C9 (counterexample): a bucket of the assigner's output can retain
duplicate ids — in `chainGlobCrate`, `demo::m` comes out as
`[5, 2, 3, 2, 3]`: the name-sort interleaves the two equally-named
structs with their glob copies, so the adjacent-only dedup removes
nothing — refuting "duplicate ids removed" as a property of the output. -/
theorem c9_counterexample :
    (lookupStr (groupByModule chainGlobCrate (buildPathMap chainGlobCrate)
        false) "demo::m").map (fun l => l.map (·.1)) = some [5, 2, 3, 2, 3]
    ∧ ¬ (List.Nodup ([5, 2, 3, 2, 3] : List Nat)) :=
  ⟨by decide, by decide⟩

/-- C9 (amended): the Module Assigner is deterministic on a fixed input
(a second run is literally the same pure computation), and every output
bucket is sorted by item name with *consecutive* duplicate ids removed —
equal-id entries separated by an equally-named entry of a different id
can survive the dedup. -/
theorem c9_assigner_deterministic_sorted (crate : Crate)
    (itemPaths : List (Nat × List String)) (includePrivate : Bool) :
    groupByModule crate itemPaths includePrivate
      = groupByModule crate itemPaths includePrivate
    ∧ ∀ k l, lookupStr (groupByModule crate itemPaths includePrivate) k = some l →
        l.Pairwise (fun a b => nameLe a b = true)
        ∧ l.Chain' (fun a b => a.1 ≠ b.1) := by
  refine ⟨rfl, ?_⟩
  intro k l hl
  unfold groupByModule at hl
  rw [lookupStr_sortDedupBuckets] at hl
  obtain ⟨l0, _, rfl⟩ := Option.map_eq_some'.mp hl
  constructor
  · exact List.Pairwise.sublist (dedupAdjByIds_sublist _)
      (pairwise_insertionSortBy nameLe nameLe_total nameLe_trans l0)
  · exact chain'_dedupAdjByIds _

/-- Witness for C9 (amended): the concrete `demo::m` bucket of
`chainGlobCrate` is name-sorted with no two adjacent equal ids. -/
theorem c9_witness :
    ([(5, itemGlobVia4), (2, itemStructS), (3, itemStructS2),
      (2, itemStructS), (3, itemStructS2)] : List (Nat × Item)).Pairwise
        (fun a b => nameLe a b = true)
    ∧ ([(5, itemGlobVia4), (2, itemStructS), (3, itemStructS2),
        (2, itemStructS), (3, itemStructS2)] : List (Nat × Item)).Chain'
        (fun a b => a.1 ≠ b.1) :=
  (c9_assigner_deterministic_sorted chainGlobCrate
    (buildPathMap chainGlobCrate) false).2 "demo::m"
    [(5, itemGlobVia4), (2, itemStructS), (3, itemStructS2),
     (2, itemStructS), (3, itemStructS2)] (by decide)

/-- C7: sibling-project membership is invariant under the
hyphen/underscore distinction — the membership test depends only on the
hyphen-to-underscore normalizations of the reported library name and of
the configured sibling set — and a successful membership test makes the
link resolver produce an internal link rooted at that sibling's reported
crate name (base prefix + crate name + ...), not an external URL. -/
theorem c7_sibling_normalization :
    (∀ (n1 n2 : String) (cs1 cs2 : List String),
      strReplaceSub n1 "-" "_" = strReplaceSub n2 "-" "_" →
      cs1.map (fun c => strReplaceSub c "-" "_")
        = cs2.map (fun c => strReplaceSub c "-" "_") →
      isWorkspaceCrate n1 cs1 = isWorkspaceCrate n2 cs2)
    ∧ (∀ (fullPath0 : String) (itemId : Nat) (crate : Crate)
        (currentItem : Option Item) (basePath : String)
        (workspaceCrates : List String) (pathInfo : ItemSummary)
        (pathParts : List String) (realCrateName : String),
      lookupId crate.paths itemId = some pathInfo →
      pathInfo.crateId ≠ 0 →
      strSplitOnSub (joinSep "::" pathInfo.path) "::" = pathParts →
      2 ≤ pathParts.length →
      pathParts.headD "" ≠ "std" →
      pathParts.headD "" ≠ "core" →
      pathParts.headD "" ≠ "alloc" →
      lookupId crate.externalCrates pathInfo.crateId = some realCrateName →
      isWorkspaceCrate realCrateName workspaceCrates = true →
      ∃ tail, generateTypeLink fullPath0 itemId crate currentItem basePath
          workspaceCrates
        = some ((if basePath.data.isEmpty then "" else basePath) ++ "/"
            ++ realCrateName ++ "/" ++ tail)) := by
  constructor
  · intro n1 n2 cs1 cs2 hn hcs
    unfold isWorkspaceCrate
    have e : ∀ (cs : List String) (N : String),
        (cs.any fun c => strReplaceSub c "-" "_" == N)
          = ((cs.map fun c => strReplaceSub c "-" "_").any fun x => x == N) := by
      intro cs N
      rw [List.any_map]
      rfl
    rw [e, e, hcs, hn]
  · intro fullPath0 itemId crate currentItem basePath workspaceCrates pathInfo
      pathParts realCrateName hpi hext hparts hlen hstd hcore halloc hreal hws
    unfold generateTypeLink
    rw [generateTypeLinkDepth]
    rw [dif_neg (by omega)]
    have hloc : (pathInfo.crateId == 0) = false := by simpa using hext
    have hne : (pathInfo.crateId != 0) = true := by simpa using hext
    have hs : (pathParts.headD "" == "std") = false := by simpa using hstd
    have hc : (pathParts.headD "" == "core") = false := by simpa using hcore
    have ha : (pathParts.headD "" == "alloc") = false := by simpa using halloc
    simp only [hpi, beq_self_eq_true, if_true, hloc, Bool.false_eq_true,
      if_false, hparts, hs, hc, ha, Bool.false_or, hne, hreal, hws]
    rw [if_pos hlen]
    unfold workspaceLink
    simp only [hpi]
    obtain ⟨typeName, hgl⟩ : ∃ t, pathParts.getLast? = some t := by
      cases hpp : pathParts with
      | nil => subst hpp; simp at hlen
      | cons a rest =>
        exact ⟨(a :: rest).getLast (by simp), List.getLast?_eq_getLast _ _⟩
    simp only [hgl]
    by_cases hmp : (joinSep "/"
        (((pathParts.drop 1).dropLast).filter
          (fun part => !internalModules.contains part))).data.isEmpty
    · rw [if_pos hmp]
      refine ⟨kindTagDot pathInfo.kind ++ typeName, ?_⟩
      simp [String.append_assoc]
    · rw [if_neg hmp]
      refine ⟨joinSep "/" (((pathParts.drop 1).dropLast).filter
          (fun part => !internalModules.contains part)) ++ "/"
        ++ kindTagDot pathInfo.kind ++ typeName, ?_⟩
      simp [String.append_assoc]

/-- Witness for C7: registering `foo-bar` matches a reference reported
as `foo_bar` (and vice versa: the two member tests agree), and the match
yields an internal `/docs/foo_bar/...` destination for `foo_bar::X`. -/
theorem c7_witness :
    (isWorkspaceCrate "foo-bar" ["foo_bar"]
      = isWorkspaceCrate "foo_bar" ["foo-bar"])
    ∧ isWorkspaceCrate "foo_bar" ["foo-bar"] = true
    ∧ (∃ tail, generateTypeLink "foo_bar::X" 7 externalXCrate none "/docs"
        ["foo-bar"]
      = some ((if ("/docs" : String).data.isEmpty then "" else "/docs") ++ "/"
          ++ "foo_bar" ++ "/" ++ tail)) :=
  ⟨c7_sibling_normalization.1 "foo-bar" "foo_bar" ["foo_bar"] ["foo-bar"]
      (by decide) (by decide),
   by decide,
   c7_sibling_normalization.2 "foo_bar::X" 7 externalXCrate none "/docs"
     ["foo-bar"] ⟨2, ["foo_bar", "X"], PathItemKind.kStruct⟩ ["foo_bar", "X"]
     "foo_bar" (by decide) (by decide) (by decide) (by decide) (by decide)
     (by decide) (by decide) (by decide) (by decide)⟩

theorem foldl_pred_mono_general {σ β : Type} (P : σ → Prop)
    (step : σ → β → σ) (l : List β)
    (mono : ∀ m b, P m → P (step m b)) :
    ∀ m, P m → P (l.foldl step m) := by
  induction l with
  | nil => intro m h; simpa using h
  | cons b rest ih =>
    intro m h
    simpa using ih (step m b) (mono m b h)

theorem foldl_pred_of_elem_general {σ β : Type} (P : σ → Prop)
    (step : σ → β → σ) (l : List β) (b0 : β) (hb : b0 ∈ l)
    (mono : ∀ m b, P m → P (step m b))
    (adds : ∀ m, P (step m b0)) :
    ∀ m, P (l.foldl step m) := by
  induction l with
  | nil => cases hb
  | cons b rest ih =>
    intro m
    rcases List.mem_cons.mp hb with h | h
    · subst h
      simpa using foldl_pred_mono_general P step rest mono (step m b0) (adds m)
    · simpa using ih h (step m b)

theorem sidebarCategoryItems_modules_filter (modulePath sidebarPfx : String)
    (index : List (Nat × Item)) (itemsOfType : List Item) :
    sidebarCategoryItems "Modules" modulePath sidebarPfx index itemsOfType
      = (itemsOfType.filter (fun it => it.name.isSome &&
          (match it.inner with
           | ItemEnum.module ms => moduleHasPublicContent ms index
           | _ => true))).map (fun it =>
          SidebarItem.doc
            (underPfx sidebarPfx (modulePath ++ "/" ++ it.name.getD "" ++ "/index"))
            (some (it.name.getD "")) (some "rust-mod")) := by
  unfold sidebarCategoryItems
  suffices h : ∀ (items : List Item) (acc : List SidebarItem),
      items.foldl (fun ci it =>
        match it.name with
        | none => ci
        | some name =>
          if ("Modules" == "Modules") = true then
            match it.inner with
            | ItemEnum.module memberIds =>
              if !moduleHasPublicContent memberIds index then ci
              else
                ci ++ [SidebarItem.doc
                  (underPfx sidebarPfx (modulePath ++ "/" ++ name ++ "/index"))
                  (some name) (some "rust-mod")]
            | _ =>
              ci ++ [SidebarItem.doc
                (underPfx sidebarPfx (modulePath ++ "/" ++ name ++ "/index"))
                (some name) (some "rust-mod")]
          else
            ci ++ [SidebarItem.doc
              (underPfx sidebarPfx (modulePath ++ "/" ++ getItemPfx it ++ name))
              (some name) (some (sidebarClassOf (getItemPfx it)))]) acc
      = acc ++ (items.filter (fun it => it.name.isSome &&
          (match it.inner with
           | ItemEnum.module ms => moduleHasPublicContent ms index
           | _ => true))).map (fun it =>
          SidebarItem.doc
            (underPfx sidebarPfx (modulePath ++ "/" ++ it.name.getD "" ++ "/index"))
            (some (it.name.getD "")) (some "rust-mod")) by
    simpa using h itemsOfType []
  intro items
  induction items with
  | nil => intro acc; simp
  | cons it rest ih =>
    intro acc
    simp only [List.foldl_cons, List.filter_cons]
    rw [ih]
    cases hn : it.name with
    | none => simp [hn]
    | some name =>
      cases hi : it.inner
      case module ms =>
        by_cases hpc : moduleHasPublicContent ms index = true
        · simp [hn, hi, hpc]
        · simp only [Bool.not_eq_true] at hpc
          simp [hn, hi, hpc]
      all_goals simp [hn, hi]

theorem moduleHasPublicContent_iff (itemIds : List Nat)
    (index : List (Nat × Item)) :
    moduleHasPublicContent itemIds index = true
      ↔ ∃ id ∈ itemIds, ∃ it, lookupId index id = some it
          ∧ (∀ s n t g, it.inner ≠ ItemEnum.useItem s n t g) := by
  unfold moduleHasPublicContent
  rw [List.any_eq_true]
  constructor
  · rintro ⟨id, hid, hpred⟩
    refine ⟨id, hid, ?_⟩
    cases hlk : lookupId index id with
    | none => rw [hlk] at hpred; cases hpred
    | some it =>
      rw [hlk] at hpred
      dsimp only at hpred
      refine ⟨it, rfl, ?_⟩
      intro s n t g hne
      rw [hne] at hpred
      cases hpred
  · rintro ⟨id, hid, it, hlk, hni⟩
    refine ⟨id, hid, ?_⟩
    rw [hlk]
    dsimp only
    cases hi : it.inner
    case useItem s n t g => exact absurd hi (hni s n t g)
    all_goals rfl

theorem bucketed_module_gets_index_page (crate : Crate) (includePrivate : Bool)
    (basePath : String) (workspaceCrates : List String) (collapsed : Bool)
    (sidebarRootLink : Option String) (rootItem : Item)
    (hroot : lookupId crate.index crate.root = some rootItem)
    (moduleName : String) (items : List (Nat × Item))
    (hmem : (moduleName, items)
      ∈ groupByModule crate (buildPathMap crate) includePrivate)
    (hne : moduleName ≠ rootItem.name.getD "unknown") :
    ∃ out, convertToMarkdownMultifile crate includePrivate basePath
        workspaceCrates collapsed sidebarRootLink = Except.ok out
      ∧ (strReplaceSub
            ((strStripPfx moduleName
              (rootItem.name.getD "unknown" ++ "::")).getD moduleName)
            "::" "/" ++ "/index.md") ∈ out.fileKeys := by
  unfold convertToMarkdownMultifile
  rw [hroot]
  refine ⟨_, rfl, ?_⟩
  dsimp only
  refine foldl_pred_of_elem_general
    (fun fs => (strReplaceSub
      ((strStripPfx moduleName
        (rootItem.name.getD "unknown" ++ "::")).getD moduleName)
      "::" "/" ++ "/index.md") ∈ fs) _ _ (moduleName, items) hmem ?_ ?_ _
  · intro fs b hf
    dsimp only
    split
    · simp [hf]
    · simp [hf]
  · intro fs
    dsimp only
    rw [if_neg (show ¬((moduleName == rootItem.name.getD "unknown") = true)
      from by simpa using hne)]
    simp

/-- C10 (counterexample): in `emptyModCrate` the empty public module `m`
is (correctly) omitted from the root sidebar's Modules category, but its
index page is *not* generated — the conversion's file set is just
`index.md`, with no `m/index.md` — refuting "its index page is still
generated" for empty modules. -/
theorem c10_counterexample :
    docIdsOfCategory "Modules"
        (generateSidebarForModule "demo" "demo"
          (groupByModule emptyModCrate (buildPathMap emptyModCrate) false)
          emptyModCrate "" false true none none []) = []
    ∧ convertToMarkdownMultifile emptyModCrate false "" [] false none
        = Except.ok { crateName := "demo", fileKeys := ["index.md"] } := by
  refine ⟨by decide, by rfl⟩

/-- C10 (amended): a child module is listed under the sidebar's
"Modules" category exactly when it has a name and
`module_has_public_content` holds of its members, i.e. some member
present in the index is not a re-export; and every module that has a
bucket entry (in particular one whose members are all re-exports, since
they populate its bucket) still gets its `<module>/index.md` page — but
an empty module without a bucket entry gets no index page. -/
theorem c10_sidebar_modules_filtered :
    (∀ (modulePath sidebarPfx : String) (index : List (Nat × Item))
        (itemsOfType : List Item),
      sidebarCategoryItems "Modules" modulePath sidebarPfx index itemsOfType
        = (itemsOfType.filter (fun it => it.name.isSome &&
            (match it.inner with
             | ItemEnum.module ms => moduleHasPublicContent ms index
             | _ => true))).map (fun it =>
            SidebarItem.doc
              (underPfx sidebarPfx
                (modulePath ++ "/" ++ it.name.getD "" ++ "/index"))
              (some (it.name.getD "")) (some "rust-mod")))
    ∧ (∀ (itemIds : List Nat) (index : List (Nat × Item)),
        moduleHasPublicContent itemIds index = true
          ↔ ∃ id ∈ itemIds, ∃ it, lookupId index id = some it
              ∧ (∀ s n t g, it.inner ≠ ItemEnum.useItem s n t g))
    ∧ (∀ (crate : Crate) (includePrivate : Bool) (basePath : String)
        (workspaceCrates : List String) (collapsed : Bool)
        (sidebarRootLink : Option String) (rootItem : Item),
      lookupId crate.index crate.root = some rootItem →
      ∀ (moduleName : String) (items : List (Nat × Item)),
        (moduleName, items)
          ∈ groupByModule crate (buildPathMap crate) includePrivate →
        moduleName ≠ rootItem.name.getD "unknown" →
        ∃ out, convertToMarkdownMultifile crate includePrivate basePath
            workspaceCrates collapsed sidebarRootLink = Except.ok out
          ∧ (strReplaceSub
                ((strStripPfx moduleName
                  (rootItem.name.getD "unknown" ++ "::")).getD moduleName)
                "::" "/" ++ "/index.md") ∈ out.fileKeys) :=
  ⟨sidebarCategoryItems_modules_filter,
   moduleHasPublicContent_iff,
   fun crate ip bp wc col srl rootItem hroot moduleName items hmem hne =>
     bucketed_module_gets_index_page crate ip bp wc col srl rootItem hroot
       moduleName items hmem hne⟩

/-- Witness for C10 (amended) on `allRexCrate`: module `m`, all of whose
members are re-exports, is omitted from the Modules category while its
bucket still yields the page `m/index.md`. -/
theorem c10_witness :
    (∃ out, convertToMarkdownMultifile allRexCrate false "" [] false none
        = Except.ok out ∧
      (strReplaceSub ((strStripPfx "demo::m"
          ((itemRootDemo.name.getD "unknown") ++ "::")).getD "demo::m")
        "::" "/" ++ "/index.md") ∈ out.fileKeys)
    ∧ docIdsOfCategory "Modules"
        (generateSidebarForModule "demo" "demo"
          (groupByModule allRexCrate (buildPathMap allRexCrate) false)
          allRexCrate "" false true none none []) = [] := by
  constructor
  · exact c10_sidebar_modules_filtered.2.2 allRexCrate false "" [] false none
      itemRootDemo (by decide) "demo::m" [(4, itemUseNoTarget)] (by decide)
      (by decide)
  · decide

theorem lookupStr_map_overwrite_self (k v : String) :
    ∀ m : List (String × String),
      (m.find? (fun p => p.1 == k)).isSome = true →
      lookupStr (m.map (fun p => if p.1 == k then (p.1, v) else p)) k = some v := by
  intro m
  induction m with
  | nil => intro h; simp at h
  | cons hd tl ih =>
    obtain ⟨a, b⟩ := hd
    intro h
    by_cases ha : a = k
    · subst ha
      simp [lookupStr]
    · have hne : (a == k) = false := by simpa using ha
      simp only [List.find?] at h
      rw [hne] at h
      have hmap : List.map (fun p => if p.1 == k then (p.1, v) else p) ((a, b) :: tl)
          = (a, b) :: List.map (fun p => if p.1 == k then (p.1, v) else p) tl := by
        simp only [List.map_cons, hne, Bool.false_eq_true, if_false]
      rw [hmap]
      simp only [lookupStr, List.find?]
      rw [hne]
      exact ih h

theorem lookupStr_map_overwrite_other (k v k' : String) (hk : k' ≠ k) :
    ∀ m : List (String × String),
      lookupStr (m.map (fun p => if p.1 == k then (p.1, v) else p)) k'
        = lookupStr m k' := by
  intro m
  induction m with
  | nil => simp [lookupStr]
  | cons hd tl ih =>
    obtain ⟨a, b⟩ := hd
    by_cases ha : a = k
    · subst ha
      have hne : (a == k') = false := by simpa using fun he => hk he.symm
      have hmap : List.map (fun p => if p.1 == a then (p.1, v) else p) ((a, b) :: tl)
          = (a, v) :: List.map (fun p => if p.1 == a then (p.1, v) else p) tl := by
        simp
      rw [hmap]
      simp only [lookupStr, List.find?]
      rw [hne]
      exact ih
    · have hne : (a == k) = false := by simpa using ha
      have hmap : List.map (fun p => if p.1 == k then (p.1, v) else p) ((a, b) :: tl)
          = (a, b) :: List.map (fun p => if p.1 == k then (p.1, v) else p) tl := by
        simp only [List.map_cons, hne, Bool.false_eq_true, if_false]
      rw [hmap]
      by_cases hak' : a = k'
      · subst hak'
        simp [lookupStr]
      · have hne2 : (a == k') = false := by simpa using hak'
        simp only [lookupStr, List.find?]
        rw [hne2]
        exact ih

theorem lookupStr_append_single_self (k v : String) :
    ∀ m : List (String × String),
      (m.find? (fun p => p.1 == k)) = none →
      lookupStr (m ++ [(k, v)]) k = some v := by
  intro m
  induction m with
  | nil => intro _; simp [lookupStr]
  | cons hd tl ih =>
    obtain ⟨a, b⟩ := hd
    intro h
    simp only [List.find?] at h
    by_cases ha : a = k
    · rw [show ((a == k) = true) from by simpa using ha] at h
      cases h
    · have hne : (a == k) = false := by simpa using ha
      rw [hne] at h
      simp only [List.cons_append, lookupStr, List.find?]
      rw [hne]
      exact ih h

theorem lookupStr_append_single_other (k v k' : String) (hk : k' ≠ k) :
    ∀ m : List (String × String),
      lookupStr (m ++ [(k, v)]) k' = lookupStr m k' := by
  intro m
  induction m with
  | nil =>
    simp only [List.nil_append, lookupStr, List.find?]
    rw [show ((k == k') = false) from by simpa using fun he => hk he.symm]
  | cons hd tl ih =>
    obtain ⟨a, b⟩ := hd
    by_cases hak' : a = k'
    · subst hak'
      simp [lookupStr]
    · have hne : (a == k') = false := by simpa using hak'
      simp only [List.cons_append, lookupStr, List.find?]
      rw [hne]
      exact ih

theorem lookupStr_insertAssoc (m : List (String × String)) (k v k' : String) :
    lookupStr (insertAssoc m k v) k'
      = if k' = k then some v else lookupStr m k' := by
  unfold insertAssoc
  by_cases hfound : ((m.find? (fun p => p.1 == k)).isSome) = true
  · rw [if_pos hfound]
    by_cases hk : k' = k
    · subst hk
      rw [if_pos rfl]
      exact lookupStr_map_overwrite_self k' v m hfound
    · rw [if_neg hk]
      exact lookupStr_map_overwrite_other k v k' hk m
  · rw [if_neg hfound]
    have hnone : (m.find? (fun p => p.1 == k)) = none := by
      cases hf : m.find? (fun p => p.1 == k) with
      | none => rfl
      | some p => rw [hf] at hfound; simp at hfound
    by_cases hk : k' = k
    · subst hk
      rw [if_pos rfl]
      exact lookupStr_append_single_self k' v m hnone
    · rw [if_neg hk]
      exact lookupStr_append_single_other k v k' hk m

theorem lookupStr_foldl_insert (k : String) :
    ∀ (l m : List (String × String)),
      lookupStr (l.foldl (fun m kv => insertAssoc m kv.1 kv.2) m) k
        = (lookupStr (l.foldl (fun m kv => insertAssoc m kv.1 kv.2) []) k).or
            (lookupStr m k) := by
  intro l
  induction l with
  | nil => intro m; simp [lookupStr]
  | cons kv rest ih =>
    intro m
    simp only [List.foldl_cons]
    rw [ih (insertAssoc m kv.1 kv.2), ih (insertAssoc [] kv.1 kv.2)]
    rw [lookupStr_insertAssoc, lookupStr_insertAssoc]
    by_cases hk : k = kv.1
    · rw [if_pos hk, if_pos hk]
      cases hX : lookupStr (rest.foldl (fun m kv => insertAssoc m kv.1 kv.2) []) k
        <;> simp
    · rw [if_neg hk, if_neg hk]
      cases hX : lookupStr (rest.foldl (fun m kv => insertAssoc m kv.1 kv.2) []) k
        <;> simp [lookupStr]
/-- **C8.** Merging a freshly generated sidebar file into an existing one
(`merge_rust_sidebars`) (i) preserves every previously-written key the
current run does not recompute and overwrites, last-writer-wins, every
key both runs contain: a key's merged value is the new run's value when
the new run has one, and otherwise the existing value; (ii) depends on
the existing file only through the entry body extracted between the
`rustSidebars` markers, so any previously serialized root sidebar
outside the markers is discarded; (iii) on success serializes the merged
entry map inside the new content's header/footer and appends a root
sidebar recomputed from the merged entries, never carried over. -/
theorem c8_sidebar_merge :
    (∀ ex newBody k,
      lookupStr (mergeEntriesMap ex newBody) k
        = (lookupStr (parseEntriesMap newBody) k).or
            (lookupStr (parseEntriesMap ex) k))
    ∧ (∀ ex1 ex2 newContent,
        extractExistingEntries ex1 = extractExistingEntries ex2 →
        mergeRustSidebars ex1 newContent = mergeRustSidebars ex2 newContent)
    ∧ (∀ ex newContent r, mergeRustSidebars ex newContent = Except.ok r →
        ∃ hdr ne ftr,
          r = hdr
            ++ buildMergedEntries (mergeEntriesMap (extractExistingEntries ex) ne)
            ++ sidebarsEndMark ++ ftr
            ++ rootSidebarEpilogue (generateRootSidebar
                (buildMergedEntries
                  (mergeEntriesMap (extractExistingEntries ex) ne)))) := by
  refine ⟨?_, ?_, ?_⟩
  · intro ex newBody k
    exact lookupStr_foldl_insert k (parseEntries newBody)
      ((parseEntries ex).foldl (fun m kv => insertAssoc m kv.1 kv.2) [])
  · intro ex1 ex2 newContent h
    unfold mergeRustSidebars
    rw [h]
  · intro ex newContent r h
    cases hs : findSubIdx sidebarsStartMark.data newContent.data with
    | none =>
      simp only [mergeRustSidebars, hs] at h
      exact Except.noConfusion h
    | some newStartPos =>
      simp only [mergeRustSidebars, hs] at h
      cases he : findSubIdx sidebarsEndMark.data
          (strDropN newContent (newStartPos + sidebarsStartMark.data.length)).data with
      | none =>
        rw [he] at h
        simp at h
      | some endPos =>
        rw [he] at h
        refine ⟨strTakeN newContent (newStartPos + sidebarsStartMark.data.length),
          strSlice newContent (newStartPos + sidebarsStartMark.data.length)
            (newStartPos + sidebarsStartMark.data.length + endPos),
          strDropN newContent (newStartPos + sidebarsStartMark.data.length
            + (strSlice newContent (newStartPos + sidebarsStartMark.data.length)
                (newStartPos + sidebarsStartMark.data.length + endPos)).data.length
            + sidebarsEndMark.data.length), ?_⟩
        exact (Except.ok.inj h).symm
theorem c8_witness :
    (lookupStr (mergeEntriesMap (sampleEntry "k0") (sampleEntry "k1")) "k0"
      = (lookupStr (parseEntriesMap (sampleEntry "k1")) "k0").or
          (lookupStr (parseEntriesMap (sampleEntry "k0")) "k0"))
    ∧ (mergeRustSidebars (sampleSidebarFile "k0") (sampleSidebarFile "k1")
        = mergeRustSidebars (sampleSidebarFile "k0" ++ "// stale\n")
            (sampleSidebarFile "k1"))
    ∧ (∃ hdr ne ftr,
        (mergeRustSidebars (sampleSidebarFile "k0")
            (sampleSidebarFile "k1")).toOption.getD ""
          = hdr
            ++ buildMergedEntries (mergeEntriesMap
                (extractExistingEntries (sampleSidebarFile "k0")) ne)
            ++ sidebarsEndMark ++ ftr
            ++ rootSidebarEpilogue (generateRootSidebar
                (buildMergedEntries (mergeEntriesMap
                  (extractExistingEntries (sampleSidebarFile "k0")) ne)))) :=
  ⟨c8_sidebar_merge.1 (sampleEntry "k0") (sampleEntry "k1") "k0",
   c8_sidebar_merge.2.1 (sampleSidebarFile "k0")
     (sampleSidebarFile "k0" ++ "// stale\n") (sampleSidebarFile "k1") (by rfl),
   c8_sidebar_merge.2.2 (sampleSidebarFile "k0") (sampleSidebarFile "k1")
     ((mergeRustSidebars (sampleSidebarFile "k0")
        (sampleSidebarFile "k1")).toOption.getD "") (by rfl)⟩
